import Mathlib

/-!
Verification development for the arena-simulation backend
(`theAreanaSim/generateArenaSim.py`).

The Python module is shallowly embedded below.  Conventions of the
embedding:

* Python `float` arithmetic is modelled with exact rationals (`ℚ`);
  Python's unbounded `int` is `Int` (`Nat` where the source guarantees
  non-negativity, e.g. `kills`).
* The single seedable generator `random.Random(seed)` is modelled as a
  deterministic stream of natural numbers derived from the seed together
  with a cursor; every primitive draw (`random()`, `randint`, `choice`,
  `sample`) consumes the stream in the same order as the source.  The
  concrete values of the stream stand in for the Mersenne-Twister
  outputs; no property proved below depends on their distribution, only
  on the consumption order and on determinism.
* Mutation of `Tribute` objects is modelled by threading the list of
  tributes; object identity (`t is not actor`) is modelled by the index
  of the tribute in that list.
* A Python exception raised during template rendering is modelled by the
  `Except` result of `format_text_exc` / `format_kw_exc`; the total
  wrappers used by the event pipeline return a marker string in the
  error case (the corresponding Python run would have propagated the
  exception; no claim settled here depends on rendered text in that
  case).
-/

unseal Rat.mul Rat.inv Rat.add Rat.sub Rat.ofScientific

namespace Arena

/-- The `{` character (written via its code so that brace conventions of
string literals never apply). -/
def lbrace : Char := Char.ofNat 123

/-- The `}` character. -/
def rbrace : Char := Char.ofNat 125

/-- `clamp` from the source: `max(low, min(high, value))`. -/
def clamp (value low high : ℚ) : ℚ := max low (min high value)

/-- Python's `round` (banker's rounding, round-half-to-even) on the
rational model of floats. -/
def pyRound (q : ℚ) : Int :=
  let f : Int := Int.floor q
  let r : ℚ := q - (f : ℚ)
  if r < 1/2 then f
  else if 1/2 < r then f + 1
  else if f % 2 = 0 then f else f + 1

/-- Word characters, as matched by the `\w` class of the placeholder
regex (ASCII fragment; the repository's templates are ASCII). -/
def isWordChar (c : Char) : Bool := c.isAlphanum || c == '_'

/-! ## The random generator model -/

/-- State of the seeded generator: an infinite stream of raw draws plus
a cursor.  Stands in for `random.Random`. -/
structure RNG where
  stream : Nat → Nat
  idx : Nat
deriving Inhabited

/-- Consume one raw draw. -/
def RNG.next (r : RNG) : Nat × RNG :=
  (r.stream r.idx, { r with idx := r.idx + 1 })

/-- Model of `rng.random()`: a rational in `[0, 1)`. -/
def RNG.randFloat (r : RNG) : ℚ × RNG :=
  let n := (r.next).1
  (((n % 1000000 : Nat) : ℚ) / 1000000, (r.next).2)

/-- Model of `rng.randint(a, b)` (both bounds inclusive; all call sites
of the source guarantee `a ≤ b`). -/
def RNG.randint (r : RNG) (a b : Int) : Int × RNG :=
  let n := (r.next).1
  (a + (n : Int) % (b - a + 1), (r.next).2)

/-- Model of `rng.choice(xs)`; all call sites of the source guarantee
`xs ≠ []`, the default is never returned there. -/
def RNG.chooseD {α : Type} (r : RNG) (xs : List α) (d : α) : α × RNG :=
  let n := (r.next).1
  (xs.getD (n % xs.length) d, (r.next).2)

/-- Model of `rng.sample(pool, k)` for a pool of tribute indices:
repeatedly draw one element of the remaining pool and remove it.  The
call sites of the source guarantee `k ≤ pool.length`. -/
def RNG.sampleIdx : RNG → List Nat → Nat → List Nat × RNG
  | r, _, 0 => ([], r)
  | r, pool, Nat.succ k =>
    if pool.isEmpty then ([], r)
    else
      let n := (r.next).1
      let r1 := (r.next).2
      let j := n % pool.length
      let x := pool.getD j 0
      let rest := pool.take j ++ pool.drop (j + 1)
      let s := RNG.sampleIdx r1 rest k
      (x :: s.1, s.2)

/-- `count` successive `choice` draws from a fixed pool (the loop body
of `assign_inventory`). -/
def RNG.chooseN (r : RNG) (items : List String) : Nat → List String × RNG
  | 0 => ([], r)
  | Nat.succ k =>
    let c := r.chooseD items ""
    let s := RNG.chooseN c.2 items k
    (c.1 :: s.1, s.2)

/-- Deterministic stream derived from the configured seed; abstract
stand-in for the Mersenne-Twister stream of `random.Random(seed)`.
(Seed `some 0` yields the all-zero stream, which the concrete test
scenarios below use.) -/
def seedMix (seed : Option Int) (i : Nat) : Nat :=
  (seed.getD 0).natAbs * (i + 1)

/-- `SimulationConfig.rng`: build the generator from the configured
seed.  In Python a missing seed draws OS entropy; claims about
determinism therefore fix an integer seed. -/
def RNG.ofSeed (seed : Option Int) : RNG := { stream := seedMix seed, idx := 0 }

/-! ## Placeholder extraction (`PLACEHOLDER_PATTERN.findall`) -/

/-- Scanner for non-overlapping matches of the regex `\x7b(\w+)\x7d`,
left to right, advancing one character after a failed match attempt
(the semantics of `re.findall`).  The fuel is the length of the input,
which always suffices. -/
def scanAux : Nat → List Char → List String
  | 0, _ => []
  | _, [] => []
  | Nat.succ fuel, c :: rest =>
    if c = lbrace then
      let ident := rest.takeWhile isWordChar
      let rest' := rest.dropWhile isWordChar
      match rest' with
      | d :: tail =>
        if d = rbrace ∧ ident ≠ [] then String.mk ident :: scanAux fuel tail
        else scanAux fuel rest
      | [] => scanAux fuel rest
    else scanAux fuel rest

/-- `extract_placeholders`: every `\x7bplaceholder\x7d` token found in
the text. -/
def extract_placeholders (text : String) : List String :=
  scanAux text.data.length text.data

/-- `infer_additional_roles`: placeholder names outside the base set,
deduplicated, in order of appearance. -/
def infer_additional_roles (text : String) (base_keys : List String) : List String :=
  (extract_placeholders text).foldl
    (fun roles key => if key ∈ base_keys ∨ key ∈ roles then roles else roles ++ [key]) []

/-- `infer_victim_roles`: victim placeholder names ordered by
appearance. -/
def infer_victim_roles (text : String) : List String :=
  (extract_placeholders text).foldl
    (fun roles key =>
      if List.isPrefixOf "victim".data key.data ∧ key ∉ roles then roles ++ [key] else roles) []

/-- `ensure_victim_keys`: guarantee a list of victim placeholder names
of length `count`. -/
def ensure_victim_keys (base_keys : List String) (count : Nat) : List String :=
  let candidates := "victim" :: (List.range' 2 (count + 3)).map (fun i => "victim" ++ toString i)
  let keys := candidates.foldl
    (fun ks cand => if count ≤ ks.length ∨ cand ∈ ks then ks else ks ++ [cand]) base_keys
  keys.take count

/-! ## Safe template rendering (`_SafeFormatDict` / `str.format_map`)

The model covers the fragment of `str.format` exercised by this
repository: literal text, doubled braces, and simple replacement fields
(field names without conversion `!`, format spec `:`, attribute `.` or
index `[` parts).  A field with one of those parts is mapped to an
error; the claims below never place such fields inside the well-formed
fragment.  All-digit field names are positional indices in Python and
raise `IndexError` under `format_map` (no positional arguments), as does
the empty auto-numbering field. -/

/-- Resolve one replacement field against the binding map.  `safe` is
the `_SafeFormatDict` behaviour (missing key rendered verbatim);
`safe = false` is plain `str.format` keyword lookup (missing key raises
`KeyError`), used by the victory message. -/
def renderField (safe : Bool) (field : String) (repl : List (String × String)) :
    Except String String :=
  if field.isEmpty then .error "IndexError: replacement index out of range"
  else if field.data.all Char.isDigit then .error "IndexError: replacement index out of range"
  else if field.data.any (fun c => c = ':' ∨ c = '!' ∨ c = '.' ∨ c = '[') then
    .error "field with conversion, format spec or access is outside the modelled fragment"
  else
    match repl.lookup field with
    | some v => .ok v
    | none =>
      if safe then .ok (lbrace.toString ++ field ++ rbrace.toString)
      else .error ("KeyError: " ++ field)

/-- Character-by-character parser of a format string.  The third
argument is `none` in literal mode and `some acc` inside a replacement
field, `acc` holding the field characters in reverse.  The first
argument is the number of characters left to scan; the wrappers pass
the exact length of the input, so the fuel-exhaustion arms are
unreachable (every step consumes one character and one unit of
fuel). -/
def fmtAux (safe : Bool) (repl : List (String × String)) :
    Nat → List Char → Option (List Char) → Except String String
  | _, [], none => .ok ""
  | _, [], some _ => .error "ValueError: expected closing brace before end of string"
  | 0, _ :: _, _ => .error "unreachable: fuel exhausted"
  | Nat.succ f, c :: rest, none =>
    if c = lbrace then
      match f, rest with
      | _, [] => .error "ValueError: single open brace encountered in format string"
      | 0, _ :: _ => .error "unreachable: fuel exhausted"
      | Nat.succ f2, d :: tail =>
        if d = lbrace then (fmtAux safe repl f2 tail none).map (fun s => lbrace.toString ++ s)
        else fmtAux safe repl (Nat.succ f2) (d :: tail) (some [])
    else if c = rbrace then
      match f, rest with
      | _, [] => .error "ValueError: single close brace encountered in format string"
      | 0, _ :: _ => .error "unreachable: fuel exhausted"
      | Nat.succ f2, d :: tail =>
        if d = rbrace then (fmtAux safe repl f2 tail none).map (fun s => rbrace.toString ++ s)
        else .error "ValueError: single close brace encountered in format string"
    else (fmtAux safe repl f rest none).map (fun s => c.toString ++ s)
  | Nat.succ f, c :: rest, some acc =>
    if c = rbrace then
      match renderField safe (String.mk acc.reverse) repl with
      | .ok v => (fmtAux safe repl f rest none).map (fun s => v ++ s)
      | .error e => .error e
    else if c = lbrace then .error "ValueError: unexpected open brace in field name"
    else fmtAux safe repl f rest (some (c :: acc))

/-- `format_template_text` with the Python exception made explicit:
`template.format_map(_SafeFormatDict(replacements))`. -/
def format_text_exc (template : String) (replacements : List (String × String)) :
    Except String String :=
  fmtAux true replacements template.data.length template.data none

/-- `format_template_text` as used by the event pipeline.  The error
case corresponds to an exception propagating out of the Python run. -/
def format_template_text (template : String) (replacements : List (String × String)) : String :=
  match format_text_exc template replacements with
  | .ok s => s
  | .error e => "!FORMAT-EXCEPTION! " ++ e

/-- `template.format(**kwargs)` (victory message): missing keys raise. -/
def format_kw_exc (template : String) (replacements : List (String × String)) :
    Except String String :=
  fmtAux false replacements template.data.length template.data none

/-- Total wrapper of `format_kw_exc`, same convention as
`format_template_text`. -/
def format_kw (template : String) (replacements : List (String × String)) : String :=
  match format_kw_exc template replacements with
  | .ok s => s
  | .error e => "!FORMAT-EXCEPTION! " ++ e

/-- A structured view of a format string: literal characters and simple
`\x7bidentifier\x7d` replacement fields. -/
inductive TemplatePart
  | lit (c : Char)
  | ph (name : String)
deriving DecidableEq

/-- The characters a part contributes to the template string. -/
def partChars : TemplatePart → List Char
  | .lit c => [c]
  | .ph n => lbrace :: n.data ++ [rbrace]

/-- Assemble a template string from parts. -/
def assembleTemplate : List TemplatePart → String
  | [] => String.mk []
  | p :: ps => String.mk (partChars p) ++ assembleTemplate ps

/-- What safe rendering should produce for one part: the bound value
when the key is present, the literal `\x7bname\x7d` token otherwise. -/
def renderPart (repl : List (String × String)) : TemplatePart → String
  | .lit c => c.toString
  | .ph n => (repl.lookup n).getD (lbrace.toString ++ n ++ rbrace.toString)

/-- Expected rendering of a whole parts list. -/
def renderParts (repl : List (String × String)) : List TemplatePart → String
  | [] => ""
  | p :: ps => renderPart repl p ++ renderParts repl ps

/-- A part is well formed when a literal is not a brace and a field
name is a nonempty word-character identifier that is not all digits
(all-digit names are positional indices in Python and raise under
`format_map`). -/
def goodPart : TemplatePart → Bool
  | .lit c => !(c == lbrace) && !(c == rbrace)
  | .ph n => !n.data.isEmpty && n.data.all isWordChar && !(n.data.all Char.isDigit)

/-! ## Raw template entries and their normalization -/

/-- A raw lethal-pool entry: a bare string or a structured object.
`explicit` is the successfully parsed `victim_count` / `victims` field;
an absent or unparseable field (the `TypeError/ValueError` handler of
the source) is `none`. -/
inductive RawLethal
  | str (text : String)
  | obj (text : String) (explicit : Option Int)
deriving DecidableEq

/-- A raw non-lethal-pool entry.  `extra_roles` is the resolved
`extra_roles`/`extraRoles` list when one was given (Python's falsy-empty
handling makes `some []` unreachable from JSON input). -/
inductive RawNonLethal
  | str (text : String)
  | obj (text : String) (extra_roles : Option (List String))
deriving DecidableEq

/-- A raw special-item event entry; `invalid` covers values that are
neither strings nor objects with a `text` field. -/
inductive RawSpecial
  | str (text : String)
  | obj (text : String) (lethal : Bool) (explicit : Option Int) (consumes : Option Bool)
  | invalid
deriving DecidableEq

/-- Canonical lethal template (`normalize_lethal_entry` output). -/
structure LethalTemplate where
  text : String
  victim_count : Nat
  victim_keys : List String
deriving DecidableEq

/-- Canonical non-lethal template (`normalize_non_lethal_entry`
output). -/
structure NonLethalTemplate where
  text : String
  roles : List String
deriving DecidableEq

/-- Canonical special-item template (`normalize_special_event`
output). -/
structure SpecialTemplate where
  text : String
  lethal : Bool
  victim_keys : List String
  victim_count : Nat
  consumes : Bool
deriving DecidableEq

instance : Inhabited SpecialTemplate := ⟨⟨"", false, [], 0, false⟩⟩

/-- `normalize_special_event`. -/
def normalize_special_event (event : RawSpecial) (default_consumes : Bool) :
    Option SpecialTemplate :=
  match event with
  | .str text =>
    let victim_roles := infer_victim_roles text
    let victim_count := victim_roles.length
    some { text := text, lethal := false,
           victim_keys := ensure_victim_keys victim_roles victim_count,
           victim_count := victim_count, consumes := default_consumes }
  | .obj text lethal explicit consumes =>
    let victim_roles := infer_victim_roles text
    let victim_count : Nat :=
      match explicit with
      | none => victim_roles.length
      | some e => (max 0 e).toNat
    let victim_count :=
      if lethal ∧ victim_count = 0 then
        if victim_roles.length = 0 then 1 else victim_roles.length
      else victim_count
    let consumes_flag := match consumes with
      | none => default_consumes
      | some b => b
    some { text := text, lethal := lethal,
           victim_keys := ensure_victim_keys victim_roles victim_count,
           victim_count := victim_count, consumes := consumes_flag }
  | .invalid => none

/-- `normalize_non_lethal_entry`.  The base key set is `{"person"}`. -/
def normalize_non_lethal_entry (entry : RawNonLethal) : NonLethalTemplate :=
  match entry with
  | .obj text extra_roles =>
    let roles := match extra_roles with
      | some raw_roles => raw_roles.filter (fun role => role ∉ ["person"])
      | none => infer_additional_roles text ["person"]
    { text := text, roles := roles }
  | .str text => { text := text, roles := infer_additional_roles text ["person"] }

/-- `normalize_lethal_entry`. -/
def normalize_lethal_entry (entry : RawLethal) : LethalTemplate :=
  match entry with
  | .obj text explicit =>
    let victim_roles := infer_victim_roles text
    let victim_count : Nat :=
      match explicit with
      | none => if victim_roles.length = 0 then 1 else victim_roles.length
      | some e => (max 1 e).toNat
    { text := text, victim_count := victim_count,
      victim_keys := ensure_victim_keys victim_roles victim_count }
  | .str text =>
    let victim_roles := infer_victim_roles text
    let victim_count := if victim_roles.length = 0 then 1 else victim_roles.length
    { text := text, victim_count := victim_count,
      victim_keys := ensure_victim_keys victim_roles victim_count }

/-! ## Data model -/

/-- `MAX_INVENTORY_SIZE`. -/
def MAX_INVENTORY_SIZE : Nat := 10

/-- `MAX_START_ITEMS`. -/
def MAX_START_ITEMS : Int := 0

/-- A single competitor (`Tribute` dataclass). -/
structure Tribute where
  name : String
  alive : Bool := true
  kills : Nat := 0
  inventory : List String := []
deriving DecidableEq

instance : Inhabited Tribute := ⟨⟨"", false, 0, []⟩⟩

/-- A raw `special_item_events` entry (a JSON object).  Entries that are
not objects are dropped before this stage; `item` is the `str()` of the
`item` field (`""` when the field was missing or falsy, which makes the
builder skip the entry, as in the source). -/
structure SpecialRuleRaw where
  item : String
  events : List RawSpecial
  consumes : Bool
deriving DecidableEq

/-- Normalized payload stored in the special-item map. -/
structure SpecialPayload where
  events : List SpecialTemplate
  consumes : Bool
deriving DecidableEq

instance : Inhabited SpecialPayload := ⟨⟨[], false⟩⟩

/-- `SimulationConfig` with the documented defaults.  Probabilities are
exact rationals standing in for the float literals. -/
structure SimulationConfig where
  lethal_event_chance : ℚ := 55/100
  inventory_event_chance : ℚ := 35/100
  loot_event_chance : ℚ := 25/100
  min_events_per_day : Int := 2
  max_events_per_day : Int := 4
  bloodbath_event_range : List Int := [6, 9]
  bloodbath_lethal_bonus : ℚ := 25/100
  inventory_items : List String :=
    ["medkit", "snare trap", "flare", "camouflage cloak", "ration pack", "throwing knife"]
  lethal_events : List RawLethal :=
    [.str "\x7bkiller\x7d ambushes \x7bvictim\x7d near the river.",
     .str "\x7bkiller\x7d traps \x7bvictim\x7d in a ravine.",
     .str "\x7bkiller\x7d outmatches \x7bvictim\x7d after a tense duel.",
     .str "\x7bkiller\x7d sabotages \x7bvictim\x7d's shelter overnight."]
  non_lethal_events : List RawNonLethal :=
    [.str "\x7bperson\x7d scouts the cornucopia from afar.",
     .str "\x7bperson\x7d gathers herbs and hopes they are edible.",
     .str "\x7bperson\x7d reinforces a hidden bunker.",
     .str "\x7bperson\x7d shares stories with the breeze—silence answers back.",
     .str "\x7bperson\x7d stalks distant footsteps but loses the trail."]
  inventory_events : List String :=
    ["\x7bperson\x7d sets a \x7bitem\x7d and waits patiently.",
     "\x7bperson\x7d patches wounds with a trusty \x7bitem\x7d.",
     "\x7bperson\x7d flashes a \x7bitem\x7d to ward off pursuers.",
     "\x7bperson\x7d retools a \x7bitem\x7d into something even more dangerous."]
  loot_events : List String :=
    ["\x7bperson\x7d scavenges a \x7bitem\x7d from the Cornucopia wreckage.",
     "\x7bperson\x7d digs up a buried stash and pockets a \x7bitem\x7d.",
     "\x7bperson\x7d barters quietly for a \x7bitem\x7d.",
     "\x7bperson\x7d slips a \x7bitem\x7d into their pack unnoticed."]
  item_loot_text : List (String × List String) := []
  special_item_events : List SpecialRuleRaw := []
  special_item_event_chance : ℚ := 4/10
  target_min_days : Int := 7
  target_max_days : Int := 12
  victory_template : String := "\x7bname\x7d emerges victorious with \x7bkills\x7d elimination(s)!"
  seed : Option Int := none

/-- Insert with dict semantics (a later entry for the same item
overwrites an earlier one). -/
def insertPayload (m : List (String × SpecialPayload)) (k : String) (v : SpecialPayload) :
    List (String × SpecialPayload) :=
  m.filter (fun p => p.1 ≠ k) ++ [(k, v)]

/-- `build_special_item_map`. -/
def build_special_item_map (config : SimulationConfig) : List (String × SpecialPayload) :=
  config.special_item_events.foldl
    (fun mapping entry =>
      if entry.item = "" ∨ entry.events = [] then mapping
      else
        let parsed_events := entry.events.filterMap
          (fun ev => normalize_special_event ev entry.consumes)
        if parsed_events = [] then mapping
        else insertPayload mapping entry.item ⟨parsed_events, entry.consumes⟩)
    []

/-! ## Pacing controller -/

/-- `determine_desired_total_days`. -/
def determine_desired_total_days (total_tributes : Nat) (config : SimulationConfig) : Int :=
  let min_days := max 1 config.target_min_days
  let max_days := max min_days config.target_max_days
  if total_tributes ≤ 1 ∨ min_days = max_days then min_days
  else
    let ratio : ℚ := if 2 < total_tributes then ((total_tributes : ℚ) - 2) / 22 else 0
    let ratio := clamp ratio 0 1
    let span := max_days - min_days
    pyRound ((min_days : ℚ) + (span : ℚ) * ratio)

/-- `required_events_for_progress`. -/
def required_events_for_progress (day_number : Nat) (alive_count : Nat)
    (desired_days : Int) (config : SimulationConfig) : Int :=
  if alive_count ≤ 1 then 0
  else
    let remaining_days := max 1 (desired_days - ((day_number : Int) - 1))
    let needed_eliminations := max 0 ((alive_count : Int) - 1)
    let target_kills := max 1 (Int.ceil ((needed_eliminations : ℚ) / (remaining_days : ℚ)))
    let base_chance := config.lethal_event_chance
    let base_chance :=
      if day_number = 1 then min 1 (base_chance + config.bloodbath_lethal_bonus) else base_chance
    let effective_chance := clamp base_chance (1/10) (95/100)
    Int.ceil ((target_kills : ℚ) / effective_chance)

/-- `compute_death_pressure`. -/
def compute_death_pressure (alive_count : Nat) (day_number : Nat) (daily_events : Int)
    (desired_days : Int) (config : SimulationConfig) : ℚ :=
  if alive_count ≤ 1 ∨ daily_events ≤ 0 then 1
  else
    let remaining_days := max 1 (desired_days - ((day_number : Int) - 1))
    let needed_eliminations := max 0 ((alive_count : Int) - 1)
    let target_kills : ℚ := (needed_eliminations : ℚ) / (remaining_days : ℚ)
    let base_chance := config.lethal_event_chance
    let base_chance :=
      if day_number = 1 then min 1 (base_chance + config.bloodbath_lethal_bonus) else base_chance
    let expected_kills := (daily_events : ℚ) * clamp base_chance (5/100) (95/100)
    let pressure := target_kills / max expected_kills (1/10)
    let late_game_bonus : ℚ := 1 + (max 0 ((day_number : Int) - 10) : ℚ) * (1/2)
    clamp (pressure * late_game_bonus) (6/10) 4

/-- `determine_event_count` (also returns the advanced generator). -/
def determine_event_count (day_number : Nat) (alive_count : Nat) (total_tributes : Nat)
    (config : SimulationConfig) (desired_days : Int) (rng : RNG) : Int × RNG :=
  let kill_pressure_events :=
    required_events_for_progress day_number alive_count desired_days config
  if day_number = 1 ∧ config.bloodbath_event_range ≠ [] then
    let values := config.bloodbath_event_range
    let values := if values.length = 1 then values ++ values else values
    let low := values.getD 0 0
    let high := values.getD 1 0
    let low := max config.min_events_per_day low
    let high := max low high
    rng.randint low high
  else
    let span := max 0 (config.max_events_per_day - config.min_events_per_day)
    let density : ℚ := (alive_count : ℚ) / (max 1 total_tributes : ℚ)
    let base := config.min_events_per_day + max 0 (pyRound ((span : ℚ) * density))
    let jr := if span ≠ 0 then rng.chooseD [(-1 : Int), 0, 0, 1] 0 else (0, rng)
    let jitter := jr.1
    let rng1 := jr.2
    let target := base + jitter
    let target := max target kill_pressure_events
    let soft_cap := max (min 8 (alive_count : Int)) kill_pressure_events
    let target := min target soft_cap
    (max config.min_events_per_day (min target (alive_count : Int)), rng1)

/-- The effective lethal probability of `generate_event` (lines 710-713
of the source): baseline plus day-1 bonus, times the death-pressure
multiplier, clamped. -/
def effective_lethal_chance (config : SimulationConfig) (day_number : Nat)
    (death_pressure : ℚ) : ℚ :=
  let lethal_chance := config.lethal_event_chance
  let lethal_chance :=
    if day_number = 1 then min 1 (lethal_chance + config.bloodbath_lethal_bonus)
    else lethal_chance
  clamp (lethal_chance * death_pressure) (5/100) (95/100)

/-! ## Tribute-list access

Python mutates `Tribute` objects held in one list; the embedding
threads the list and addresses tributes by index (object identity
`t is not actor` becomes index inequality). -/

/-- Read the tribute at index `i` (out-of-range reads give the dead
placeholder; call sites of the source never go out of range). -/
def tget (ts : List Tribute) (i : Nat) : Tribute := ts.getD i default

/-- Point update at index `i` (no-op when out of range). -/
def modifyAt (ts : List Tribute) (i : Nat) (f : Tribute → Tribute) : List Tribute :=
  match ts.get? i with
  | some t => ts.set i (f t)
  | none => ts

/-- Mark every tribute in `vs` dead (`target.alive = False` loop). -/
def killAll (ts : List Tribute) (vs : List Nat) : List Tribute :=
  vs.foldl (fun acc v => modifyAt acc v (fun t => { t with alive := false })) ts

/-- Indices of living tributes, in list order (`alive()` helper /
`[t for t in tributes if t.alive]`). -/
def livingIdxs (ts : List Tribute) : List Nat :=
  (List.range ts.length).filter (fun i => (tget ts i).alive)

/-- `assign_inventory`. -/
def assign_inventory (rng : RNG) (items : List String) : List String × RNG :=
  if items = [] then ([], rng)
  else
    let c := rng.randint 0 MAX_START_ITEMS
    RNG.chooseN c.2 items c.1.toNat

/-- Construction of the tribute list (the comprehension at the top of
`run_simulation`), consuming the generator once per tribute. -/
def buildTributes (rng : RNG) (items : List String) : List String → List Tribute × RNG
  | [] => ([], rng)
  | n :: ns =>
    let a := assign_inventory rng items
    let rest := buildTributes a.2 items ns
    ({ name := n, alive := true, kills := 0, inventory := a.1 } :: rest.1, rest.2)

/-! ## Events -/

/-- The `meta` dictionary of an event; absent keys are `none`. -/
structure EventMeta where
  person : Option String := none
  killer : Option String := none
  victim : Option String := none
  victims : Option (List String) := none
  item : Option String := none
  consumed : Option Bool := none
  others : Option (List String) := none
  winner : Option String := none
  kills : Option Nat := none
deriving DecidableEq

/-- One event entry. -/
structure Event where
  type : String
  text : String
  meta : EventMeta
deriving DecidableEq

/-- Dictionary-style binding update: later assignments shadow earlier
ones under `List.lookup` (first match wins, so prepend). -/
def bindAll (base : List (String × String)) (kvs : List (String × String)) :
    List (String × String) :=
  kvs.foldl (fun m kv => kv :: m) base

/-! ## `generate_event` — the per-slot decision chain

The source function falls through five prioritized branches; each
branch is a definition below, calling the next one on fall-through with
the generator advanced exactly as in the source. -/

/-- Branch 5: non-lethal fallback. -/
def genNonLethal (actorIdx : Nat) (tributes : List Tribute) (config : SimulationConfig)
    (rng : RNG) : Option Event × List Tribute × RNG :=
  let actor := tget tributes actorIdx
  let living := livingIdxs tributes
  let non_lethal_pool :=
    if config.non_lethal_events = [] then
      [RawNonLethal.str "\x7bperson\x7d passes the time in silence."]
    else config.non_lethal_events
  let c := rng.chooseD non_lethal_pool (.str "")
  let template_entry := normalize_non_lethal_entry c.1
  let rng1 := c.2
  let replacements := [("person", actor.name)]
  if template_entry.roles ≠ [] then
    let candidates := living.filter (fun i => i ≠ actorIdx)
    if candidates.length < template_entry.roles.length then (none, tributes, rng1)
    else
      let s := rng1.sampleIdx candidates template_entry.roles.length
      let others := s.1
      let rng2 := s.2
      let otherNames := others.map (fun i => (tget tributes i).name)
      let replacements := bindAll replacements (template_entry.roles.zip otherNames)
      let text := format_template_text template_entry.text replacements
      (some { type := "non-lethal", text := text,
              meta := { person := actor.name,
                        others := if others ≠ [] then some otherNames else none } },
       tributes, rng2)
  else
    let text := format_template_text template_entry.text replacements
    (some { type := "non-lethal", text := text, meta := { person := actor.name } },
     tributes, rng1)

/-- Branch 4: lethal attempt (falls through to the non-lethal
fallback). -/
def genLethal (actorIdx : Nat) (tributes : List Tribute) (config : SimulationConfig)
    (day_number : Nat) (death_pressure : ℚ) (rng : RNG) :
    Option Event × List Tribute × RNG :=
  let actor := tget tributes actorIdx
  let living := livingIdxs tributes
  let can_attempt_lethal := 1 < living.length
  let lethal_chance := effective_lethal_chance config day_number death_pressure
  if can_attempt_lethal then
    let rf := rng.randFloat
    if rf.1 < lethal_chance then
      let pool :=
        if config.lethal_events = [] then
          [RawLethal.str "\x7bkiller\x7d eliminates \x7bvictim\x7d."]
        else config.lethal_events
      let c := rf.2.chooseD pool (.str "")
      let template_info := normalize_lethal_entry c.1
      let candidates := living.filter (fun i => i ≠ actorIdx)
      let victim_count := min template_info.victim_count candidates.length
      let victim_count := if victim_count = 0 then 1 else victim_count
      let s := c.2.sampleIdx candidates victim_count
      let victims := s.1
      let rng3 := s.2
      let victimNames := victims.map (fun i => (tget tributes i).name)
      let tributes1 := killAll tributes victims
      let tributes2 :=
        modifyAt tributes1 actorIdx (fun t => { t with kills := t.kills + victims.length })
      let replacements := bindAll [("killer", actor.name)]
        (template_info.victim_keys.zip victimNames)
      let template_text := format_template_text template_info.text replacements
      (some { type := "lethal", text := template_text,
              meta := { killer := actor.name,
                        victim := victimNames.head?,
                        victims := some victimNames } },
       tributes2, rng3)
    else genNonLethal actorIdx tributes config rf.2
  else genNonLethal actorIdx tributes config rng

/-- Branch 3: inventory flavor (falls through to the lethal
attempt). -/
def genInventory (actorIdx : Nat) (tributes : List Tribute) (config : SimulationConfig)
    (day_number : Nat) (death_pressure : ℚ) (rng : RNG) :
    Option Event × List Tribute × RNG :=
  let actor := tget tributes actorIdx
  if actor.inventory ≠ [] ∧ config.inventory_events ≠ [] then
    let rf := rng.randFloat
    if rf.1 < config.inventory_event_chance then
      let ci := rf.2.chooseD actor.inventory ""
      let item := ci.1
      let ct := ci.2.chooseD config.inventory_events ""
      let template := ct.1
      let rng3 := ct.2
      (some { type := "inventory",
              text := format_template_text template [("person", actor.name), ("item", item)],
              meta := { person := actor.name, item := item } },
       tributes, rng3)
    else genLethal actorIdx tributes config day_number death_pressure rf.2
  else genLethal actorIdx tributes config day_number death_pressure rng

/-- Branch 2: loot (falls through to inventory flavor). -/
def genLoot (actorIdx : Nat) (tributes : List Tribute) (config : SimulationConfig)
    (day_number : Nat) (death_pressure : ℚ) (rng : RNG) :
    Option Event × List Tribute × RNG :=
  let actor := tget tributes actorIdx
  let can_loot := config.loot_events ≠ [] ∧ config.inventory_items ≠ [] ∧
    actor.inventory.length < MAX_INVENTORY_SIZE
  if can_loot then
    let rf := rng.randFloat
    if rf.1 < config.loot_event_chance then
      let ci := rf.2.chooseD config.inventory_items ""
      let item := ci.1
      let tributes1 :=
        modifyAt tributes actorIdx (fun t => { t with inventory := t.inventory ++ [item] })
      let item_templates := (config.item_loot_text.lookup item).getD []
      let template_pool := if item_templates = [] then config.loot_events else item_templates
      let template_pool :=
        if template_pool = [] then ["\x7bperson\x7d quietly pockets a \x7bitem\x7d."]
        else template_pool
      let ct := ci.2.chooseD template_pool ""
      let template := ct.1
      let rng3 := ct.2
      (some { type := "loot",
              text := format_template_text template [("person", actor.name), ("item", item)],
              meta := { person := actor.name, item := item } },
       tributes1, rng3)
    else genInventory actorIdx tributes config day_number death_pressure rf.2
  else genInventory actorIdx tributes config day_number death_pressure rng

/-- `generate_event`: branch 1 (special-item events), falling through
to the loot branch.  The payload-level `consumes` fallback of the
source (line 645) is unreachable because normalization always sets the
flag on the template; the template's flag already incorporates the
rule-level default. -/
def generate_event (actorIdx : Nat) (tributes : List Tribute) (config : SimulationConfig)
    (day_number : Nat) (special_item_map : List (String × SpecialPayload))
    (death_pressure : ℚ) (rng : RNG) : Option Event × List Tribute × RNG :=
  let actor := tget tributes actorIdx
  let living := livingIdxs tributes
  let special_candidates :=
    actor.inventory.filter (fun item => (special_item_map.lookup item).isSome)
  if special_candidates ≠ [] then
    let rf := rng.randFloat
    if rf.1 < config.special_item_event_chance then
      let cc := rf.2.chooseD special_candidates ""
      let chosen := cc.1
      let payload := (special_item_map.lookup chosen).getD default
      if payload.events ≠ [] then
        let ct := cc.2.chooseD payload.events default
        let template := ct.1
        let rng3 := ct.2
        let consumes_flag := template.consumes
        let victim_count := template.victim_count
        let victim_keys := ensure_victim_keys template.victim_keys victim_count
        if victim_count ≠ 0 ∧
            (living.filter (fun i => i ≠ actorIdx)).length < victim_count then
          (none, tributes, rng3)
        else
          let sv :=
            if victim_count ≠ 0 then
              rng3.sampleIdx (living.filter (fun i => i ≠ actorIdx)) victim_count
            else ([], rng3)
          let victims := sv.1
          let rng4 := sv.2
          let lethal_event := template.lethal ∧ victim_count ≠ 0
          let tributes1 := if lethal_event then killAll tributes victims else tributes
          let tributes2 :=
            if lethal_event then
              modifyAt tributes1 actorIdx
                (fun t => { t with kills := t.kills + victims.length })
            else tributes1
          let victimNames := victims.map (fun i => (tget tributes i).name)
          let replacements := bindAll [("person", actor.name), ("item", chosen)]
            (victim_keys.zip victimNames)
          let text := format_template_text template.text replacements
          let meta : EventMeta :=
            { person := actor.name, item := chosen, consumed := consumes_flag,
              victims := if victims ≠ [] then some victimNames else none,
              victim := if victims ≠ [] then victimNames.head? else none }
          let event_type := if lethal_event then "item-special lethal" else "item-special"
          let tributes3 :=
            if consumes_flag then
              modifyAt tributes2 actorIdx
                (fun t => { t with inventory := t.inventory.erase chosen })
            else tributes2
          (some { type := event_type, text := text, meta := meta }, tributes3, rng4)
      else genLoot actorIdx tributes config day_number death_pressure cc.2
    else genLoot actorIdx tributes config day_number death_pressure rf.2
  else genLoot actorIdx tributes config day_number death_pressure rng

/-! ## Day scheduler and simulation runner -/

/-- One day record of the result payload. -/
structure DayRecord where
  number : Nat
  bloodbath : Bool
  events : List Event
  fallen : List String
  survivors : List String
deriving DecidableEq

/-- The result payload of `run_simulation`. -/
structure SimResult where
  tributes : List Tribute
  days : List DayRecord
  winner : Option String
deriving DecidableEq

/-- The fallen-merging step of the day loop: for a lethal-typed event,
append every truthy victim name not yet recorded today. -/
def updateFallen (fallen_today : List String) (event : Event) : List String :=
  if event.type = "lethal" ∨ event.type = "item-special lethal" then
    match event.meta.victims with
    | some victims =>
      victims.foldl
        (fun acc name => if name ≠ "" ∧ name ∉ acc then acc ++ [name] else acc) fallen_today
    | none =>
      match event.meta.victim with
      | some victim_name =>
        if victim_name ≠ "" ∧ victim_name ∉ fallen_today then fallen_today ++ [victim_name]
        else fallen_today
      | none => fallen_today
  else fallen_today

/-- The inner slot loop (`for _ in range(daily_target)`), with its two
`break` conditions. -/
def run_day_slots (config : SimulationConfig) (day_number : Nat)
    (special_item_map : List (String × SpecialPayload)) (death_pressure : ℚ) :
    Nat → List Tribute → List Event → List String → RNG →
    List Tribute × List Event × List String × RNG
  | 0, tributes, events_today, fallen_today, rng => (tributes, events_today, fallen_today, rng)
  | Nat.succ slots, tributes, events_today, fallen_today, rng =>
    let living := livingIdxs tributes
    if living = [] then (tributes, events_today, fallen_today, rng)
    else
      let ca := rng.chooseD living 0
      let actorIdx := ca.1
      let g := generate_event actorIdx tributes config day_number special_item_map
        death_pressure ca.2
      let tributes' := g.2.1
      let rng2 := g.2.2
      match g.1 with
      | none =>
        run_day_slots config day_number special_item_map death_pressure
          slots tributes' events_today fallen_today rng2
      | some event =>
        let events' := events_today ++ [event]
        let fallen' := updateFallen fallen_today event
        if (livingIdxs tributes').length ≤ 1 then (tributes', events', fallen', rng2)
        else
          run_day_slots config day_number special_item_map death_pressure
            slots tributes' events' fallen' rng2

/-- The outer `while len(alive()) > 1` loop, bounded by `fuel` days (the
source's loop has no a-priori day bound; every claim about a finished
run takes the terminal state as hypothesis). -/
def run_sim_days (config : SimulationConfig)
    (special_item_map : List (String × SpecialPayload)) (desired_days : Int)
    (total_tributes : Nat) :
    Nat → List Tribute → Nat → List DayRecord → RNG →
    List Tribute × List DayRecord × RNG
  | 0, tributes, _, days, rng => (tributes, days, rng)
  | Nat.succ fuel, tributes, day_counter, days, rng =>
    if 1 < (livingIdxs tributes).length then
      let day := day_counter + 1
      let current_alive := (livingIdxs tributes).length
      let dt := determine_event_count day current_alive total_tributes config desired_days rng
      let daily_target := dt.1
      let rng1 := dt.2
      let death_pressure :=
        compute_death_pressure current_alive day daily_target desired_days config
      let r := run_day_slots config day special_item_map death_pressure
        daily_target.toNat tributes [] [] rng1
      let tributes' := r.1
      let events_today := r.2.1
      let fallen_today := r.2.2.1
      let rng2 := r.2.2.2
      let dayRec : DayRecord :=
        { number := day, bloodbath := day = 1, events := events_today,
          fallen := fallen_today,
          survivors := (livingIdxs tributes').map (fun i => (tget tributes' i).name) }
      run_sim_days config special_item_map desired_days total_tributes
        fuel tributes' day (days ++ [dayRec]) rng2
    else (tributes, days, rng)

/-- Appending the victory event to the last day (`if winner and
days:`). -/
def appendVictory (days : List DayRecord) (event : Event) : List DayRecord :=
  match days.getLast? with
  | none => days
  | some last => days.dropLast ++ [{ last with events := last.events ++ [event] }]

/-- `run_simulation`, with an explicit day budget `fuel` standing in
for the unbounded `while` loop. -/
def run_simulation (fuel : Nat) (names : List String) (config : SimulationConfig) :
    SimResult :=
  let rng := RNG.ofSeed config.seed
  let bt := buildTributes rng config.inventory_items names
  let tributes := bt.1
  let rng1 := bt.2
  let total_tributes := tributes.length
  let special_item_map := build_special_item_map config
  let desired_days := determine_desired_total_days total_tributes config
  let r := run_sim_days config special_item_map desired_days total_tributes
    fuel tributes 0 [] rng1
  let tributes' := r.1
  let days := r.2.1
  let winnerIdx := (livingIdxs tributes').head?
  let winner := winnerIdx.map (fun i => tget tributes' i)
  let days' :=
    match winner with
    | some w =>
      if days ≠ [] then
        appendVictory days
          { type := "victory",
            text := format_kw config.victory_template
              [("name", w.name), ("kills", toString w.kills)],
            meta := { winner := w.name, kills := w.kills } }
      else days
    | none => days
  { tributes := tributes', days := days', winner := winner.map (fun w => w.name) }

/-! ## Derived quantities used by the claims -/

/-- Names of the tributes, in list order. -/
def tnames (ts : List Tribute) : List String := ts.map (fun t => t.name)

/-- Names of the dead tributes, in list order. -/
def deadNames (ts : List Tribute) : List String :=
  (ts.filter (fun t => !t.alive)).map (fun t => t.name)

/-- Names of the living tributes, in list order. -/
def aliveNames (ts : List Tribute) : List String :=
  (ts.filter (fun t => t.alive)).map (fun t => t.name)

/-- Number of tributes whose alive flag is false. -/
def deadCount (ts : List Tribute) : Nat :=
  (ts.filter (fun t => !t.alive)).length

/-- Sum of the kill counters. -/
def killsSum (ts : List Tribute) : Nat := (ts.map (fun t => t.kills)).sum

/-- Concatenation of the `fallen` lists of all day records. -/
def fallenAll (days : List DayRecord) : List String := (days.map (fun d => d.fallen)).flatten

/-! ## Specification predicates for one event-generation step -/

/-- The sampled-and-killed victims of one slot: distinct indices of
living non-actor tributes. -/
def VictimsOK (a : Nat) (ts : List Tribute) (vs : List Nat) : Prop :=
  vs.Nodup ∧ ∀ v ∈ vs, v < ts.length ∧ v ≠ a ∧ (tget ts v).alive = true

/-- Pointwise description of the state after one slot with actor `a`
and killed victims `vs`: names never change, exactly the victims flip
to dead, only the actor's kill counter moves (by the victim count), and
only the actor's inventory may change. -/
def StateChange (a : Nat) (ts ts' : List Tribute) (vs : List Nat) : Prop :=
  ts'.length = ts.length ∧
  (∀ i, (tget ts' i).name = (tget ts i).name) ∧
  (∀ i, (tget ts' i).alive = ((tget ts i).alive && !(vs.contains i))) ∧
  (∀ i, (tget ts' i).kills = (tget ts i).kills + (if i = a then vs.length else 0)) ∧
  (∀ i, i ≠ a → (tget ts' i).inventory = (tget ts i).inventory)

/-- Link between the produced event and the killed victims: a
lethal-typed event carries exactly the victims' names in its metadata;
any other outcome kills nobody. -/
def EventLink (ts : List Tribute) (vs : List Nat) : Option Event → Prop
  | none => vs = []
  | some e =>
    if e.type = "lethal" ∨ e.type = "item-special lethal" then
      e.meta.victims = some (vs.map (fun v => (tget ts v).name)) ∧ vs ≠ []
    else vs = []

/-- Per-type frame facts: a skipped slot and the purely narrative event
types leave the state untouched; a loot event only appends one item to
the actor's inventory. -/
def EventFrame (a : Nat) (ts ts' : List Tribute) : Option Event → Prop
  | none => ts' = ts
  | some e =>
    (e.type = "inventory" ∨ e.type = "non-lethal" → ts' = ts) ∧
    (e.type = "loot" →
      ∃ item, ts' = modifyAt ts a (fun t => { t with inventory := t.inventory ++ [item] }))

/-! ## Concrete scenarios

Finite test configurations used to instantiate the claims.  The seed
`some 0` gives the all-zero draw stream: every probability roll yields
`0` (so a roll against a positive chance succeeds), every `choice`
picks the first element and every `randint` returns its lower bound. -/

/-- Scenario configuration: fixed seed, looting disabled. -/
def cexConfig : SimulationConfig := { loot_event_chance := 0, seed := some 0 }

/-- Two-tribute roster used by the lethal-branch scenario. -/
def c4Tributes : List Tribute := [{ name := "A" }, { name := "B" }]

/-- Configuration whose only lethal template names two victims. -/
def c4Config : SimulationConfig :=
  { lethal_events := [.str "\x7bkiller\x7d kills \x7bvictim\x7d and \x7bvictim2\x7d."],
    seed := some 0 }

/-- Special-item rule with a non-lethal template that samples one
victim. -/
def c6Rule : SpecialRuleRaw :=
  { item := "orb", events := [.str "\x7bperson\x7d shows \x7bvictim\x7d the orb."],
    consumes := true }

/-- Configuration carrying `c6Rule`. -/
def c6Config : SimulationConfig := { special_item_events := [c6Rule], seed := some 0 }

/-- Roster for the special-item scenarios: the actor holds the item. -/
def c6Tributes : List Tribute := [{ name := "A", inventory := ["orb"] }, { name := "B" }]

/-- One special-item slot of the non-lethal scenario. -/
def c6Result : Option Event × List Tribute × RNG :=
  generate_event 0 c6Tributes c6Config 1 (build_special_item_map c6Config) 1
    (RNG.ofSeed (some 0))

/-- Special-item rule with a lethal, consumed template. -/
def c6LRule : SpecialRuleRaw :=
  { item := "dagger", events := [.obj "\x7bperson\x7d stabs \x7bvictim\x7d." true none none],
    consumes := true }

/-- Configuration carrying `c6LRule`. -/
def c6LConfig : SimulationConfig := { special_item_events := [c6LRule], seed := some 0 }

/-- Roster for the lethal special-item scenario. -/
def c6LTributes : List Tribute := [{ name := "A", inventory := ["dagger"] }, { name := "B" }]

/-- The special-item map of the lethal scenario. -/
def c6LMap : List (String × SpecialPayload) := build_special_item_map c6LConfig

/-- The actor's special-item candidates in the lethal scenario. -/
def c6LSc : List String :=
  (tget c6LTributes 0).inventory.filter (fun it => (c6LMap.lookup it).isSome)

/-- The item chosen by the zero stream. -/
def c6LChosen : String := (((RNG.ofSeed (some 0)).randFloat).2.chooseD c6LSc "").1

/-- The payload looked up for the chosen item. -/
def c6LPayload : SpecialPayload := (c6LMap.lookup c6LChosen).getD default

/-- The template drawn from the payload, with the advanced generator. -/
def c6LT : SpecialTemplate × RNG :=
  (((RNG.ofSeed (some 0)).randFloat).2.chooseD c6LSc "").2.chooseD c6LPayload.events default

/-- Two-tribute roster for the frame-property witness. -/
def c10Tributes : List Tribute := [{ name := "P" }, { name := "Q" }]

/-- A well-formed template (parts view) for the rendering witness. -/
def c9Parts : List TemplatePart :=
  [TemplatePart.ph "victim", TemplatePart.lit ' ', TemplatePart.ph "unknown"]

/-! ## List helper lemmas -/

theorem length_modifyAt (ts : List Tribute) (i : Nat) (f : Tribute → Tribute) :
    (modifyAt ts i f).length = ts.length := by
  unfold modifyAt
  cases h : ts.get? i <;> simp

theorem tget_modifyAt (ts : List Tribute) (i j : Nat) (f : Tribute → Tribute) :
    tget (modifyAt ts i f) j =
      if j = i ∧ i < ts.length then f (tget ts i) else tget ts j := by
  unfold modifyAt tget
  cases h : ts.get? i with
  | none =>
    have hge : ts.length ≤ i := by
      simpa using List.get?_eq_none.mp h
    have hcond : ¬(j = i ∧ i < ts.length) := by
      rintro ⟨rfl, hlt⟩; omega
    simp [hcond]
  | some t =>
    have hlt : i < ts.length := by
      by_contra hge
      rw [List.get?_eq_none.mpr (by omega)] at h
      exact Option.noConfusion h
    have ht : tget ts i = t := by
      simp [tget, List.getD_eq_getElem?_getD, ← List.get?_eq_getElem?, h]
    have hset := List.get?_set_of_lt' (f t) (m := i) (n := j) ts hlt
    rw [List.getD_eq_getElem?_getD, ← List.get?_eq_getElem?, hset]
    by_cases hji : i = j
    · subst hji
      have hti : ts[i] = t := by
        rw [List.get?_eq_getElem?, List.getElem?_eq_getElem hlt] at h
        exact Option.some.inj h
      simp [hlt, tget, List.getD_eq_getElem?_getD, List.getElem?_eq_getElem hlt, hti]
    · have hcond : ¬(j = i ∧ i < ts.length) := fun hc => hji hc.1.symm
      simp [hji, hcond, tget, List.getD_eq_getElem?_getD, List.get?_eq_getElem?]

theorem killAll_nil (ts : List Tribute) : killAll ts [] = ts := rfl

theorem killAll_cons (ts : List Tribute) (v : Nat) (vs : List Nat) :
    killAll ts (v :: vs) =
      killAll (modifyAt ts v (fun t => { t with alive := false })) vs := rfl

theorem length_killAll (vs : List Nat) (ts : List Tribute) :
    (killAll ts vs).length = ts.length := by
  induction vs generalizing ts with
  | nil => rfl
  | cons v vs ih => rw [killAll_cons, ih, length_modifyAt]

theorem tget_killAll (vs : List Nat) (ts : List Tribute) (j : Nat)
    (hv : ∀ v ∈ vs, v < ts.length) :
    tget (killAll ts vs) j =
      if j ∈ vs then { tget ts j with alive := false } else tget ts j := by
  induction vs generalizing ts with
  | nil => simp [killAll_nil]
  | cons v vs ih =>
    have hvlen : v < ts.length := hv v (by simp)
    rw [killAll_cons, ih]
    · by_cases hjv : j = v
      · subst hjv
        by_cases hjs : j ∈ vs <;>
          simp [hjs, tget_modifyAt, hvlen]
      · by_cases hjs : j ∈ vs <;>
          simp [hjs, hjv, tget_modifyAt]
    · intro w hw
      rw [length_modifyAt]
      exact hv w (by simp [hw])

theorem mem_livingIdxs (ts : List Tribute) (i : Nat) :
    i ∈ livingIdxs ts ↔ i < ts.length ∧ (tget ts i).alive = true := by
  simp [livingIdxs, List.mem_filter, List.mem_range]

theorem nodup_livingIdxs (ts : List Tribute) : (livingIdxs ts).Nodup :=
  (List.nodup_range _).filter _

theorem sampleIdx_mem {rng : RNG} {pool : List Nat} {k : Nat} :
    ∀ x ∈ (RNG.sampleIdx rng pool k).1, x ∈ pool := by
  induction k generalizing rng pool with
  | zero => intro x hx; simp [RNG.sampleIdx] at hx
  | succ k ih =>
    intro x hx
    rw [RNG.sampleIdx] at hx
    by_cases hp : pool.isEmpty
    · simp [hp] at hx
    · simp only [hp, if_false] at hx
      have hlen : 0 < pool.length := by
        cases pool with
        | nil => simp at hp
        | cons a l => simp
      have hj : (rng.next).1 % pool.length < pool.length := Nat.mod_lt _ hlen
      rcases List.mem_cons.mp hx with h | h
      · subst h
        rw [List.getD_eq_getElem pool 0 hj]
        exact List.getElem_mem hj
      · have := ih _ h
        rcases List.mem_append.mp this with h' | h'
        · exact List.take_subset _ _ h'
        · exact List.drop_subset _ _ h'

theorem sampleIdx_nodup {rng : RNG} {pool : List Nat} {k : Nat} (hnd : pool.Nodup) :
    (RNG.sampleIdx rng pool k).1.Nodup := by
  induction k generalizing rng pool with
  | zero => simp [RNG.sampleIdx]
  | succ k ih =>
    rw [RNG.sampleIdx]
    by_cases hp : pool.isEmpty
    · simp [hp]
    · simp only [hp, if_false]
      have hlen : 0 < pool.length := by
        cases pool with
        | nil => simp at hp
        | cons a l => simp
      have hj : (rng.next).1 % pool.length < pool.length := Nat.mod_lt _ hlen
      have hsplit : pool = pool.take ((rng.next).1 % pool.length) ++
          pool[(rng.next).1 % pool.length] :: pool.drop ((rng.next).1 % pool.length + 1) := by
        conv_lhs => rw [← List.take_append_drop ((rng.next).1 % pool.length) pool]
        rw [List.drop_eq_getElem_cons hj]
      have hmid : pool[(rng.next).1 % pool.length] ∉
          pool.take ((rng.next).1 % pool.length) ++
            pool.drop ((rng.next).1 % pool.length + 1) ∧
          (pool.take ((rng.next).1 % pool.length) ++
            pool.drop ((rng.next).1 % pool.length + 1)).Nodup := by

        have := hnd
        rw [hsplit, List.nodup_middle, List.nodup_cons] at this
        exact this
      have hrest : (pool.take ((rng.next).1 % pool.length) ++
          pool.drop ((rng.next).1 % pool.length + 1)).Nodup := hmid.2
      refine List.nodup_cons.mpr ⟨?_, ih hrest⟩
      intro hmem
      rw [List.getD_eq_getElem pool 0 hj] at hmem
      exact hmid.1 (sampleIdx_mem _ hmem)

theorem sampleIdx_length {rng : RNG} {pool : List Nat} {k : Nat} (hk : k ≤ pool.length) :
    (RNG.sampleIdx rng pool k).1.length = k := by
  induction k generalizing rng pool with
  | zero => simp [RNG.sampleIdx]
  | succ k ih =>
    rw [RNG.sampleIdx]
    have hlen : 0 < pool.length := by omega
    have hp : ¬pool.isEmpty := by
      cases pool with
      | nil => simp at hlen
      | cons a l => simp
    rw [if_neg hp]
    simp only [List.length_cons]
    rw [ih]
    have hj : (rng.next).1 % pool.length < pool.length := Nat.mod_lt _ hlen
    rw [List.length_append, List.length_take, List.length_drop]
    omega

theorem tget_cons_succ (t : Tribute) (ts : List Tribute) (i : Nat) :
    tget (t :: ts) (i + 1) = tget ts i := rfl

theorem tget_cons_zero (t : Tribute) (ts : List Tribute) : tget (t :: ts) 0 = t := rfl

/-- Bridge between list-level `map` and index-level `map` over
`range`. -/
theorem map_tget_range {α : Type} (f : Tribute → α) (ts : List Tribute) :
    (List.range ts.length).map (fun i => f (tget ts i)) = ts.map f := by
  induction ts with
  | nil => simp
  | cons t ts ih =>
    simp only [List.length_cons, List.range_succ_eq_map, List.map_cons, List.map_map]
    refine congrArg₂ _ (by simp [tget]) ?_
    rw [← ih]
    refine List.map_congr_left ?_
    intro i _
    simp [Function.comp, tget_cons_succ]

/-- Bridge between list-level `filter`+`map` and index-level ones. -/
theorem filter_map_tget_range {α : Type} (p : Tribute → Bool) (f : Tribute → α)
    (ts : List Tribute) :
    ((List.range ts.length).filter (fun i => p (tget ts i))).map (fun i => f (tget ts i)) =
      (ts.filter p).map f := by
  induction ts with
  | nil => simp
  | cons t ts ih =>
    have hstep :
        ((List.range ts.length).map Nat.succ).filter (fun i => p (tget (t :: ts) i)) =
          ((List.range ts.length).filter (fun i => p (tget ts i))).map Nat.succ := by
      rw [List.filter_map]
      refine congrArg _ (List.filter_congr ?_)
      intro i _
      simp [Function.comp, tget_cons_succ]
    have hmm :
        (((List.range ts.length).filter (fun i => p (tget ts i))).map Nat.succ).map
            (fun i => f (tget (t :: ts) i)) =
          ((List.range ts.length).filter (fun i => p (tget ts i))).map
            (fun i => f (tget ts i)) := by
      rw [List.map_map]
      refine List.map_congr_left ?_
      intro i _
      simp [Function.comp, tget_cons_succ]
    simp only [List.length_cons, List.range_succ_eq_map, List.filter_cons]
    have h0 : (p (tget (t :: ts) 0) = true) = (p t = true) := by rw [tget_cons_zero]
    by_cases hp : p t
    · rw [show p (tget (t :: ts) 0) = p t from by rw [tget_cons_zero], if_pos hp,
        if_pos hp, hstep]
      simp only [List.map_cons]
      rw [hmm, ih, tget_cons_zero]
    · rw [show p (tget (t :: ts) 0) = p t from by rw [tget_cons_zero],
        if_neg hp, if_neg hp, hstep, hmm, ih]

theorem deadNames_eq_range (ts : List Tribute) :
    deadNames ts =
      ((List.range ts.length).filter (fun i => !(tget ts i).alive)).map
        (fun i => (tget ts i).name) := by
  rw [deadNames, ← filter_map_tget_range]

theorem aliveNames_eq_living (ts : List Tribute) :
    aliveNames ts = (livingIdxs ts).map (fun i => (tget ts i).name) := by
  rw [aliveNames, ← filter_map_tget_range, livingIdxs]

theorem deadCount_eq_length_deadNames (ts : List Tribute) :
    deadCount ts = (deadNames ts).length := by
  rw [deadCount, deadNames, List.length_map]

theorem killsSum_eq_range (ts : List Tribute) :
    killsSum ts = ((List.range ts.length).map (fun i => (tget ts i).kills)).sum := by
  rw [killsSum, map_tget_range]

/-- Splitting a filtered list along a disjunction of disjoint
predicates, up to permutation. -/
theorem filter_or_perm {α : Type} (p q : α → Bool) :
    ∀ (l : List α), (∀ x ∈ l, ¬(p x = true ∧ q x = true)) →
      List.Perm (l.filter (fun x => p x || q x)) (l.filter p ++ l.filter q)
  | [], _ => by simp
  | x :: l, h => by
    have hx := h x (by simp)
    have ih := filter_or_perm p q l (fun y hy => h y (by simp [hy]))
    simp only [List.filter_cons]
    by_cases hp : p x
    · have hq : ¬q x = true := fun hq => hx ⟨hp, hq⟩
      simp only [hp, hq, Bool.true_or, if_pos rfl]
      simpa using ih.cons x
    · by_cases hq : q x
      · have hpb : p x = false := by simpa using hp
        rw [if_pos (show (p x || q x) = true by simp [hpb, hq]),
          if_neg (show ¬p x = true by simp [hpb]), if_pos hq]
        exact (ih.cons x).trans List.perm_middle.symm
      · have hpb : p x = false := by simpa using hp
        have hqb : q x = false := by simpa using hq
        simp only [hpb, hqb, Bool.or_self, Bool.false_eq_true, if_false]
        exact ih

/-- Filtering `range n` by membership in a duplicate-free list of
indices below `n` recovers that list up to permutation. -/
theorem filter_contains_range_perm (vs : List Nat) (n : Nat) (hnd : vs.Nodup)
    (hlt : ∀ v ∈ vs, v < n) :
    List.Perm ((List.range n).filter (fun i => vs.contains i)) vs := by
  refine (List.perm_ext_iff_of_nodup ((List.nodup_range n).filter _) hnd).mpr ?_
  intro a
  simp only [List.mem_filter, List.mem_range]
  constructor
  · rintro ⟨_, hc⟩
    exact List.elem_iff.mp hc
  · intro ha
    exact ⟨hlt a ha, List.elem_iff.mpr ha⟩

/-- Adding `n` at one position `a < m` of a summed range. -/
theorem sum_range_add_ite (g : Nat → Nat) (m a n : Nat) (ha : a < m) :
    ((List.range m).map (fun i => g i + if i = a then n else 0)).sum =
      ((List.range m).map g).sum + n := by
  induction m with
  | zero => omega
  | succ m ih =>
    rw [List.range_succ]
    by_cases ham : a = m
    · subst ham
      have hrest :
          ((List.range a).map (fun i => g i + if i = a then n else 0)).sum =
            ((List.range a).map g).sum := by
        refine congrArg _ (List.map_congr_left ?_)
        intro i hi
        have : i ≠ a := by
          have := List.mem_range.mp hi; omega
        simp [this]
      simp [hrest]
      omega
    · have ham' : a < m := by omega
      simp only [List.map_append, List.sum_append, ih ham', List.map_cons,
        List.map_nil, List.sum_cons, List.sum_nil]
      have : m ≠ a := by omega
      simp [this]
      omega

theorem stateChange_refl (a : Nat) (ts : List Tribute) : StateChange a ts ts [] := by
  refine ⟨rfl, fun i => rfl, fun i => by simp, fun i => by simp, fun i _ => rfl⟩

theorem tnames_eq_of_stateChange {a : Nat} {ts ts' : List Tribute} {vs : List Nat}
    (h : StateChange a ts ts' vs) : tnames ts' = tnames ts := by
  rw [tnames, ← map_tget_range, tnames, ← map_tget_range, h.1]
  exact List.map_congr_left fun i _ => h.2.1 i

theorem deadNames_perm_of_stateChange {a : Nat} {ts ts' : List Tribute} {vs : List Nat}
    (h : StateChange a ts ts' vs) (hvok : VictimsOK a ts vs) :
    List.Perm (deadNames ts')
      (deadNames ts ++ vs.map (fun v => (tget ts v).name)) := by
  rw [deadNames_eq_range, deadNames_eq_range, h.1]
  have hfil : (List.range ts.length).filter (fun i => !(tget ts' i).alive) =
      (List.range ts.length).filter (fun i => !(tget ts i).alive || vs.contains i) := by
    refine List.filter_congr ?_
    intro i _
    rw [h.2.2.1 i]
    cases (tget ts i).alive <;> cases hc : vs.contains i <;> simp
  have hmapf :
      ((List.range ts.length).filter
          (fun i => !(tget ts i).alive || vs.contains i)).map
        (fun i => (tget ts' i).name) =
      ((List.range ts.length).filter
          (fun i => !(tget ts i).alive || vs.contains i)).map
        (fun i => (tget ts i).name) :=
    List.map_congr_left fun i _ => h.2.1 i
  rw [hfil, hmapf]
  have hdisj : ∀ i ∈ List.range ts.length,
      ¬((!(tget ts i).alive) = true ∧ vs.contains i = true) := by
    rintro i _ ⟨hdead, hc⟩
    have hm := List.elem_iff.mp hc
    have := (hvok.2 i hm).2.2
    simp [this] at hdead
  have hperm := filter_or_perm (fun i => !(tget ts i).alive) (fun i => vs.contains i)
    (List.range ts.length) hdisj
  refine (hperm.map (fun i => (tget ts i).name)).trans ?_
  rw [List.map_append]
  refine List.Perm.append_left _ ?_
  exact (filter_contains_range_perm vs ts.length hvok.1
    (fun v hv => (hvok.2 v hv).1)).map _

theorem deadCount_of_stateChange {a : Nat} {ts ts' : List Tribute} {vs : List Nat}
    (h : StateChange a ts ts' vs) (hvok : VictimsOK a ts vs) :
    deadCount ts' = deadCount ts + vs.length := by
  rw [deadCount_eq_length_deadNames, deadCount_eq_length_deadNames]
  have := (deadNames_perm_of_stateChange h hvok).length_eq
  simpa using this

theorem killsSum_of_stateChange {a : Nat} {ts ts' : List Tribute} {vs : List Nat}
    (h : StateChange a ts ts' vs) (ha : a < ts.length) :
    killsSum ts' = killsSum ts + vs.length := by
  rw [killsSum_eq_range, killsSum_eq_range, h.1]
  have hmap : (List.range ts.length).map (fun i => (tget ts' i).kills) =
      (List.range ts.length).map
        (fun i => (tget ts i).kills + if i = a then vs.length else 0) :=
    List.map_congr_left fun i _ => h.2.2.2.1 i
  rw [hmap, sum_range_add_ite _ _ _ _ ha]

theorem foldl_fallen_append :
    ∀ (ns : List String) (acc : List String), ns.Nodup →
      (∀ n ∈ ns, n ≠ "" ∧ n ∉ acc) →
      ns.foldl (fun acc name => if name ≠ "" ∧ name ∉ acc then acc ++ [name] else acc) acc =
        acc ++ ns
  | [], acc, _, _ => by simp
  | n :: ns, acc, hnd, h => by
    have hn := h n (by simp)
    simp only [List.foldl_cons, if_pos hn]
    have hnd' : ns.Nodup := (List.nodup_cons.mp hnd).2
    have hnmem : n ∉ ns := (List.nodup_cons.mp hnd).1
    rw [foldl_fallen_append ns (acc ++ [n]) hnd' ?_]
    · rw [List.append_assoc]
      simp
    · intro m hm
      refine ⟨(h m (by simp [hm])).1, ?_⟩
      intro hmem
      rcases List.mem_append.mp hmem with h' | h'
      · exact (h m (by simp [hm])).2 h'
      · have : m = n := by simpa using h'
        exact hnmem (this ▸ hm)

theorem updateFallen_lethal (fallen : List String) (e : Event) (vsNames : List String)
    (htype : e.type = "lethal" ∨ e.type = "item-special lethal")
    (hv : e.meta.victims = some vsNames) (hnd : vsNames.Nodup)
    (h : ∀ n ∈ vsNames, n ≠ "" ∧ n ∉ fallen) :
    updateFallen fallen e = fallen ++ vsNames := by
  unfold updateFallen
  rw [if_pos htype, hv]
  exact foldl_fallen_append vsNames fallen hnd h

theorem updateFallen_other (fallen : List String) (e : Event)
    (htype : ¬(e.type = "lethal" ∨ e.type = "item-special lethal")) :
    updateFallen fallen e = fallen := by
  unfold updateFallen
  rw [if_neg htype]

/-! ## Stage lemmas for the decision chain -/

theorem genNonLethal_spec (a : Nat) (ts : List Tribute) (cfg : SimulationConfig) (rng : RNG) :
    (genNonLethal a ts cfg rng).2.1 = ts ∧
      ∀ e, (genNonLethal a ts cfg rng).1 = some e → e.type = "non-lethal" := by
  unfold genNonLethal
  dsimp only
  split_ifs <;> exact ⟨rfl, fun e h => by cases h <;> rfl⟩

theorem normalize_lethal_victim_count_pos (e : RawLethal) :
    1 ≤ (normalize_lethal_entry e).victim_count := by
  cases e with
  | str t =>
    simp only [normalize_lethal_entry]
    split <;> omega
  | obj t ex =>
    cases ex with
    | none =>
      simp only [normalize_lethal_entry]
      split <;> omega
    | some n =>
      simp only [normalize_lethal_entry]
      omega

theorem filter_eq_length_le_one {l : List Nat} (a : Nat) (h : l.Nodup) :
    (l.filter (fun x => x = a)).length ≤ 1 := by
  induction l with
  | nil => simp
  | cons x l ih =>
    rw [List.filter_cons]
    rcases List.nodup_cons.mp h with ⟨hx, hl⟩
    by_cases hxa : x = a
    · subst hxa
      rw [if_pos (by simp)]
      have hnil : l.filter (fun y => y = x) = [] := by
        rw [List.filter_eq_nil_iff]
        intro y hy hyx
        exact hx ((by simpa using hyx) ▸ hy)
      simp [hnil]
    · rw [if_neg (by simp [hxa])]
      exact ih hl

theorem length_filter_ne_lower {l : List Nat} (a : Nat) (h : l.Nodup) :
    l.length ≤ (l.filter (fun i => i ≠ a)).length + 1 := by
  have hsum := List.length_eq_length_filter_add (l := l) (fun i => decide (i ≠ a))
  have hcong : l.filter (fun x => !decide (x ≠ a)) = l.filter (fun x => x = a) := by
    refine List.filter_congr ?_
    intro x _
    by_cases hxa : x = a <;> simp [hxa]
  have hle : (l.filter (fun x => x = a)).length ≤ 1 := filter_eq_length_le_one a h
  rw [hcong] at hsum
  omega

theorem stateChange_killAll_kills (a : Nat) (ts : List Tribute) (vs : List Nat)
    (ha : a < ts.length) (hvok : VictimsOK a ts vs) :
    StateChange a ts
      (modifyAt (killAll ts vs) a fun t => { t with kills := t.kills + vs.length }) vs := by
  have hva : ∀ v ∈ vs, v < ts.length := fun v hv => (hvok.2 v hv).1
  have hanotin : a ∉ vs := fun hmem => (hvok.2 a hmem).2.1 rfl
  have hlen : (killAll ts vs).length = ts.length := length_killAll vs ts
  have hk : ∀ j, tget (killAll ts vs) j =
      if j ∈ vs then { tget ts j with alive := false } else tget ts j :=
    fun j => tget_killAll vs ts j hva
  refine ⟨by rw [length_modifyAt, hlen], ?_, ?_, ?_, ?_⟩
  · intro i
    rw [tget_modifyAt, hlen]
    by_cases hia : i = a
    · subst hia
      rw [if_pos ⟨rfl, ha⟩, hk i, if_neg hanotin]
    · rw [if_neg (fun hc => hia hc.1), hk i]
      by_cases hiv : i ∈ vs <;> simp [hiv]
  · intro i
    rw [tget_modifyAt, hlen]
    by_cases hia : i = a
    · subst hia
      rw [if_pos ⟨rfl, ha⟩, hk i, if_neg hanotin]
      have hc : vs.contains i = false := by
        rw [← Bool.not_eq_true]
        simpa [List.elem_iff] using hanotin
      simp [hc]
      exact fun _ => hanotin
    · rw [if_neg (fun hc => hia hc.1), hk i]
      by_cases hiv : i ∈ vs
      · have hc : vs.contains i = true := List.elem_iff.mpr hiv
        simp [hiv, hc]
      · have hc : vs.contains i = false := by
          rw [← Bool.not_eq_true]
          simpa [List.elem_iff] using hiv
        simp [hiv, hc]
  · intro i
    rw [tget_modifyAt, hlen]
    by_cases hia : i = a
    · subst hia
      rw [if_pos ⟨rfl, ha⟩, hk i, if_neg hanotin]
      simp
    · rw [if_neg (fun hc => hia hc.1), hk i]
      by_cases hiv : i ∈ vs <;> simp [hiv, hia]
  · intro i hia
    rw [tget_modifyAt, hlen]
    rw [if_neg (fun hc => hia hc.1), hk i]
    by_cases hiv : i ∈ vs <;> simp [hiv]

theorem stateChange_modInv {a : Nat} {ts ts' : List Tribute} {vs : List Nat}
    (h : StateChange a ts ts' vs) (g : List String → List String) :
    StateChange a ts (modifyAt ts' a fun t => { t with inventory := g t.inventory }) vs := by
  refine ⟨by rw [length_modifyAt, h.1], ?_, ?_, ?_, ?_⟩
  · intro i
    rw [tget_modifyAt]
    by_cases hc : i = a ∧ a < ts'.length
    · rw [if_pos hc]
      rcases hc with ⟨rfl, _⟩
      exact h.2.1 i
    · rw [if_neg hc]
      exact h.2.1 i
  · intro i
    rw [tget_modifyAt]
    by_cases hc : i = a ∧ a < ts'.length
    · rw [if_pos hc]
      rcases hc with ⟨rfl, _⟩
      exact h.2.2.1 i
    · rw [if_neg hc]
      exact h.2.2.1 i
  · intro i
    rw [tget_modifyAt]
    by_cases hc : i = a ∧ a < ts'.length
    · rw [if_pos hc]
      rcases hc with ⟨rfl, _⟩
      exact h.2.2.2.1 i
    · rw [if_neg hc]
      exact h.2.2.2.1 i
  · intro i hia
    rw [tget_modifyAt]
    rw [if_neg (fun hc => hia hc.1)]
    exact h.2.2.2.2 i hia

theorem mem_candidates {ts : List Tribute} {a v : Nat}
    (hv : v ∈ (livingIdxs ts).filter (fun i => i ≠ a)) :
    v < ts.length ∧ v ≠ a ∧ (tget ts v).alive = true := by
  rcases List.mem_filter.mp hv with ⟨hliv, hne⟩
  rcases (mem_livingIdxs ts v).mp hliv with ⟨hlt, halive⟩
  exact ⟨hlt, by simpa using hne, halive⟩

theorem nodup_candidates (ts : List Tribute) (a : Nat) :
    ((livingIdxs ts).filter (fun i => i ≠ a)).Nodup :=
  (nodup_livingIdxs ts).filter _

theorem lethal_success_core (a : Nat) (ts : List Tribute) (vs : List Nat) (r2 : RNG)
    (tc vc : Nat) (candidates : List Nat)
    (hcand : candidates = (livingIdxs ts).filter (fun i => i ≠ a))
    (hvc : vc = if min tc candidates.length = 0 then 1 else min tc candidates.length)
    (hvs : vs = (r2.sampleIdx candidates vc).1)
    (htc : 1 ≤ tc) (h1 : 1 < (livingIdxs ts).length) (ha : a < ts.length) :
    VictimsOK a ts vs ∧
      StateChange a ts
        (modifyAt (killAll ts vs) a fun t => { t with kills := t.kills + vs.length }) vs ∧
      vs ≠ [] := by
  have hca : 1 ≤ candidates.length := by
    have := length_filter_ne_lower a (nodup_livingIdxs ts)
    rw [← hcand] at this
    omega
  have hminpos : 1 ≤ min tc candidates.length := by omega
  have hvc' : vc = min tc candidates.length := by
    rw [hvc, if_neg (by omega)]
  have hvclen : vc ≤ candidates.length := by omega
  have hlen : vs.length = vc := by
    rw [hvs]
    exact sampleIdx_length hvclen
  have hvok : VictimsOK a ts vs := by
    constructor
    · rw [hvs]
      exact sampleIdx_nodup (hcand ▸ nodup_candidates ts a)
    · intro v hv
      rw [hvs] at hv
      exact mem_candidates (hcand ▸ sampleIdx_mem v hv)
  refine ⟨hvok, stateChange_killAll_kills a ts vs ha hvok, ?_⟩
  intro hnil
  rw [hnil] at hlen
  simp at hlen
  omega

theorem nonLethal_master (a : Nat) (ts : List Tribute) (cfg : SimulationConfig) (rng : RNG) :
    ∃ vs, VictimsOK a ts vs ∧
      StateChange a ts (genNonLethal a ts cfg rng).2.1 vs ∧
      EventLink ts vs (genNonLethal a ts cfg rng).1 ∧
      EventFrame a ts (genNonLethal a ts cfg rng).2.1 (genNonLethal a ts cfg rng).1 := by
  obtain ⟨hstate, htype⟩ := genNonLethal_spec a ts cfg rng
  refine ⟨[], ⟨List.nodup_nil, by simp⟩, ?_, ?_, ?_⟩
  · rw [hstate]
    exact stateChange_refl a ts
  · cases hev : (genNonLethal a ts cfg rng).1 with
    | none => simp [EventLink]
    | some e =>
      have ht := htype e hev
      simp [EventLink, ht]
  · cases hev : (genNonLethal a ts cfg rng).1 with
    | none => simpa [EventFrame] using hstate
    | some e =>
      have ht := htype e hev
      simp only [EventFrame]
      refine ⟨fun _ => hstate, fun hloot => ?_⟩
      rw [ht] at hloot
      exact absurd hloot (by decide)

theorem genLethal_master (a : Nat) (ts : List Tribute) (cfg : SimulationConfig)
    (day : Nat) (dp : ℚ) (rng : RNG) (ha : a < ts.length) :
    ∃ vs, VictimsOK a ts vs ∧
      StateChange a ts (genLethal a ts cfg day dp rng).2.1 vs ∧
      EventLink ts vs (genLethal a ts cfg day dp rng).1 ∧
      EventFrame a ts (genLethal a ts cfg day dp rng).2.1 (genLethal a ts cfg day dp rng).1 := by
  unfold genLethal
  dsimp only
  by_cases h1 : 1 < (livingIdxs ts).length
  · rw [if_pos h1]
    by_cases h2 : (rng.randFloat).1 < effective_lethal_chance cfg day dp
    · rw [if_pos h2]
      dsimp only
      obtain ⟨hvok, hstc, hne⟩ :=
        lethal_success_core a ts _ _
          (normalize_lethal_entry
            (((rng.randFloat).2.chooseD
              (if cfg.lethal_events = []
               then [RawLethal.str "\x7bkiller\x7d eliminates \x7bvictim\x7d."]
               else cfg.lethal_events) (RawLethal.str "")).1)).victim_count
          _ _ rfl rfl rfl (normalize_lethal_victim_count_pos _) h1 ha
      refine ⟨_, hvok, hstc, ?_, ?_⟩
      · simp only [EventLink]
        exact ⟨trivial, hne⟩
      · simp [EventFrame]
    · rw [if_neg h2]
      exact nonLethal_master a ts cfg (rng.randFloat).2
  · rw [if_neg h1]
    exact nonLethal_master a ts cfg rng

theorem stateChange_modInv_append {a : Nat} {ts ts' : List Tribute} {vs : List Nat}
    (h : StateChange a ts ts' vs) (x : String) :
    StateChange a ts
      (modifyAt ts' a fun t => { t with inventory := t.inventory ++ [x] }) vs :=
  stateChange_modInv h (fun inv => inv ++ [x])

theorem stateChange_modInv_erase {a : Nat} {ts ts' : List Tribute} {vs : List Nat}
    (h : StateChange a ts ts' vs) (x : String) :
    StateChange a ts
      (modifyAt ts' a fun t => { t with inventory := t.inventory.erase x }) vs :=
  stateChange_modInv h (fun inv => inv.erase x)

theorem genInventory_master (a : Nat) (ts : List Tribute) (cfg : SimulationConfig)
    (day : Nat) (dp : ℚ) (rng : RNG) (ha : a < ts.length) :
    ∃ vs, VictimsOK a ts vs ∧
      StateChange a ts (genInventory a ts cfg day dp rng).2.1 vs ∧
      EventLink ts vs (genInventory a ts cfg day dp rng).1 ∧
      EventFrame a ts (genInventory a ts cfg day dp rng).2.1
        (genInventory a ts cfg day dp rng).1 := by
  unfold genInventory
  dsimp only
  by_cases h1 : (tget ts a).inventory ≠ [] ∧ cfg.inventory_events ≠ []
  · rw [if_pos h1]
    by_cases h2 : (rng.randFloat).1 < cfg.inventory_event_chance
    · rw [if_pos h2]
      refine ⟨[], ⟨List.nodup_nil, by simp⟩, stateChange_refl a ts, ?_, ?_⟩
      · simp [EventLink]
      · simp [EventFrame]
    · rw [if_neg h2]
      exact genLethal_master a ts cfg day dp _ ha
  · rw [if_neg h1]
    exact genLethal_master a ts cfg day dp rng ha

theorem genLoot_master (a : Nat) (ts : List Tribute) (cfg : SimulationConfig)
    (day : Nat) (dp : ℚ) (rng : RNG) (ha : a < ts.length) :
    ∃ vs, VictimsOK a ts vs ∧
      StateChange a ts (genLoot a ts cfg day dp rng).2.1 vs ∧
      EventLink ts vs (genLoot a ts cfg day dp rng).1 ∧
      EventFrame a ts (genLoot a ts cfg day dp rng).2.1 (genLoot a ts cfg day dp rng).1 := by
  unfold genLoot
  dsimp only
  by_cases h1 : cfg.loot_events ≠ [] ∧ cfg.inventory_items ≠ [] ∧
      (tget ts a).inventory.length < MAX_INVENTORY_SIZE
  · rw [if_pos h1]
    by_cases h2 : (rng.randFloat).1 < cfg.loot_event_chance
    · rw [if_pos h2]
      dsimp only
      refine ⟨[], ⟨List.nodup_nil, by simp⟩, ?_, ?_, ?_⟩
      · exact stateChange_modInv_append (stateChange_refl a ts) _
      · simp [EventLink]
      · simp only [EventFrame]
        refine ⟨fun h => ?_, fun _ => ⟨_, rfl⟩⟩
        rcases h with h | h <;> exact absurd h (by decide)
    · rw [if_neg h2]
      exact genInventory_master a ts cfg day dp _ ha
  · rw [if_neg h1]
    exact genInventory_master a ts cfg day dp rng ha

theorem special_success_core (a : Nat) (ts : List Tribute) (vs : List Nat) (r3 : RNG)
    (vc : Nat) (candidates : List Nat)
    (hcand : candidates = (livingIdxs ts).filter (fun i => i ≠ a))
    (hvs : vs = (r3.sampleIdx candidates vc).1)
    (hvc : vc ≠ 0) (hge : vc ≤ candidates.length) (ha : a < ts.length) :
    VictimsOK a ts vs ∧
      StateChange a ts
        (modifyAt (killAll ts vs) a fun t => { t with kills := t.kills + vs.length }) vs ∧
      vs ≠ [] := by
  have hlen : vs.length = vc := by
    rw [hvs]
    exact sampleIdx_length hge
  have hvok : VictimsOK a ts vs := by
    constructor
    · rw [hvs]
      exact sampleIdx_nodup (hcand ▸ nodup_candidates ts a)
    · intro v hv
      rw [hvs] at hv
      exact mem_candidates (hcand ▸ sampleIdx_mem v hv)
  refine ⟨hvok, stateChange_killAll_kills a ts vs ha hvok, ?_⟩
  intro hnil
  rw [hnil] at hlen
  simp at hlen
  omega

/-- Master specification of one `generate_event` slot: there is a list
of killed victims (distinct living non-actors) such that the state
change is exactly the pointwise `StateChange`, the produced event links
to the victims (`EventLink`), and the per-type frame facts hold
(`EventFrame`). -/
theorem generate_event_spec (a : Nat) (ts : List Tribute) (cfg : SimulationConfig)
    (day : Nat) (map : List (String × SpecialPayload)) (dp : ℚ) (rng : RNG)
    (ha : a < ts.length) :
    ∃ vs, VictimsOK a ts vs ∧
      StateChange a ts (generate_event a ts cfg day map dp rng).2.1 vs ∧
      EventLink ts vs (generate_event a ts cfg day map dp rng).1 ∧
      EventFrame a ts (generate_event a ts cfg day map dp rng).2.1
        (generate_event a ts cfg day map dp rng).1 := by
  unfold generate_event
  dsimp only
  by_cases h1 : (tget ts a).inventory.filter (fun item => (map.lookup item).isSome) ≠ []
  case neg =>
    rw [if_neg h1]
    exact genLoot_master a ts cfg day dp rng ha
  rw [if_pos h1]
  by_cases h2 : (rng.randFloat).1 < cfg.special_item_event_chance
  case neg =>
    rw [if_neg h2]
    exact genLoot_master a ts cfg day dp _ ha
  rw [if_pos h2]
  by_cases h3 :
    (((map.lookup ((rng.randFloat).2.chooseD
        ((tget ts a).inventory.filter (fun item => (map.lookup item).isSome)) "").1).getD
        default).events : List SpecialTemplate) ≠ []
  case neg =>
    rw [if_neg h3]
    exact genLoot_master a ts cfg day dp _ ha
  rw [if_pos h3]
  generalize hT :
    (((rng.randFloat).2.chooseD
        ((tget ts a).inventory.filter (fun item => (map.lookup item).isSome)) "").2.chooseD
      ((map.lookup ((rng.randFloat).2.chooseD
          ((tget ts a).inventory.filter (fun item => (map.lookup item).isSome)) "").1).getD
        default).events default) = T
  by_cases habort : T.1.victim_count ≠ 0 ∧
      ((livingIdxs ts).filter (fun i => i ≠ a)).length < T.1.victim_count
  · rw [if_pos habort]
    refine ⟨[], ⟨List.nodup_nil, by simp⟩, stateChange_refl a ts, ?_, ?_⟩
    · simp [EventLink]
    · simp [EventFrame]
  · rw [if_neg habort]
    by_cases hle : (T.1.lethal : Prop) ∧ T.1.victim_count ≠ 0
    · -- lethal special event
      have hvc0 : T.1.victim_count ≠ 0 := hle.2
      have hge : T.1.victim_count ≤ ((livingIdxs ts).filter (fun i => i ≠ a)).length := by
        rcases not_and_or.mp habort with h | h
        · exact absurd hvc0 h
        · omega
      obtain ⟨hvok, hstc, hne⟩ :=
        special_success_core a ts _ T.2 T.1.victim_count _ rfl rfl hvc0 hge ha
      simp only [if_pos hvc0, if_pos hle]
      by_cases hcf : T.1.consumes = true
      · simp only [if_pos hcf]
        refine ⟨_, hvok, stateChange_modInv_erase hstc _, ?_, ?_⟩
        · simp [EventLink]
          simpa using hne
        · simp [EventFrame]
      · simp only [if_neg hcf]
        refine ⟨_, hvok, hstc, ?_, ?_⟩
        · simp [EventLink]
          simpa using hne
        · simp [EventFrame]
    · -- non-lethal special event
      simp only [if_neg hle]
      by_cases hcf : T.1.consumes = true
      · simp only [if_pos hcf]
        refine ⟨[], ⟨List.nodup_nil, by simp⟩,
          stateChange_modInv_erase (stateChange_refl a ts) _, ?_, ?_⟩
        · simp [EventLink]
        · simp [EventFrame]
      · simp only [if_neg hcf]
        refine ⟨[], ⟨List.nodup_nil, by simp⟩, stateChange_refl a ts, ?_, ?_⟩
        · simp [EventLink]
        · simp [EventFrame]

/-! ## Invariants through the day loop -/

theorem chooseD_mem {α : Type} (rng : RNG) (xs : List α) (d : α) (h : xs ≠ []) :
    (rng.chooseD xs d).1 ∈ xs := by
  unfold RNG.chooseD
  have hlen : 0 < xs.length := List.length_pos.mpr h
  have hj : (rng.next).1 % xs.length < xs.length := Nat.mod_lt _ hlen
  dsimp only
  rw [List.getD_eq_getElem xs d hj]
  exact List.getElem_mem hj

theorem tnames_eq_range (ts : List Tribute) :
    tnames ts = (List.range ts.length).map (fun i => (tget ts i).name) := by
  rw [tnames, ← map_tget_range]

theorem tget_name_inj {ts : List Tribute} (hnd : (tnames ts).Nodup) {v w : Nat}
    (hv : v < ts.length) (hw : w < ts.length)
    (heq : (tget ts v).name = (tget ts w).name) : v = w := by
  rw [tnames_eq_range] at hnd
  have hinj := List.inj_on_of_nodup_map hnd
  exact hinj (List.mem_range.mpr hv) (List.mem_range.mpr hw) heq

theorem map_names_nodup {ts : List Tribute} {vs : List Nat} (hnd : (tnames ts).Nodup)
    (hvs : vs.Nodup) (hlt : ∀ v ∈ vs, v < ts.length) :
    (vs.map (fun v => (tget ts v).name)).Nodup := by
  refine (List.nodup_map_iff_inj_on hvs).mpr ?_
  intro v hv w hw heq
  exact tget_name_inj hnd (hlt v hv) (hlt w hw) heq

theorem tget_name_mem {ts : List Tribute} {v : Nat} (hv : v < ts.length) :
    (tget ts v).name ∈ tnames ts := by
  rw [tnames_eq_range]
  exact List.mem_map.mpr ⟨v, List.mem_range.mpr hv, rfl⟩

theorem alive_notin_deadNames {ts : List Tribute} (hnd : (tnames ts).Nodup) {v : Nat}
    (hv : v < ts.length) (halive : (tget ts v).alive = true) :
    (tget ts v).name ∉ deadNames ts := by
  rw [deadNames_eq_range]
  intro hmem
  rcases List.mem_map.mp hmem with ⟨i, hi, hname⟩
  rcases List.mem_filter.mp hi with ⟨hirange, hidead⟩
  have hieq : i = v :=
    tget_name_inj hnd (List.mem_range.mp hirange) hv hname
  subst hieq
  rw [halive] at hidead
  exact absurd hidead (by decide)

theorem fallenAll_append (days : List DayRecord) (d : DayRecord) :
    fallenAll (days ++ [d]) = fallenAll days ++ d.fallen := by
  simp [fallenAll]

theorem fallenAll_appendVictory (days : List DayRecord) (e : Event) :
    fallenAll (appendVictory days e) = fallenAll days := by
  unfold appendVictory
  cases hlast : days.getLast? with
  | none => rfl
  | some last =>
    have hne : days ≠ [] := by
      intro h
      rw [h] at hlast
      exact Option.noConfusion hlast
    conv_rhs => rw [← List.dropLast_append_getLast hne]
    rw [List.getLast?_eq_getLast days hne] at hlast
    have : List.getLast days hne = last := Option.some.inj hlast
    rw [← this]
    simp [fallenAll]

theorem deadAlive_perm (ts : List Tribute) :
    List.Perm (deadNames ts ++ aliveNames ts) (tnames ts) := by
  have h := List.filter_append_perm (fun t => !t.alive) ts
  have hcong : ts.filter (fun t => !(!t.alive)) = ts.filter (fun t => t.alive) := by
    refine List.filter_congr ?_
    intro t _
    simp
  rw [hcong] at h
  have := h.map (fun t : Tribute => t.name)
  rw [List.map_append] at this
  exact this

theorem slot_step (cfg : SimulationConfig) (day : Nat)
    (map : List (String × SpecialPayload)) (dp : ℚ) (ts : List Tribute) (a : Nat)
    (rng : RNG) (ha : a < ts.length) (hnodup : (tnames ts).Nodup)
    (hempty : "" ∉ tnames ts) (F fallen : List String)
    (hperm : List.Perm (F ++ fallen) (deadNames ts))
    (hk : killsSum ts = deadCount ts) :
    tnames (generate_event a ts cfg day map dp rng).2.1 = tnames ts ∧
      killsSum (generate_event a ts cfg day map dp rng).2.1 =
        deadCount (generate_event a ts cfg day map dp rng).2.1 ∧
      List.Perm
        (F ++ (match (generate_event a ts cfg day map dp rng).1 with
               | none => fallen
               | some e => updateFallen fallen e))
        (deadNames (generate_event a ts cfg day map dp rng).2.1) := by
  obtain ⟨vs, hvok, hstc, hlink, _⟩ := generate_event_spec a ts cfg day map dp rng ha
  have hnames := tnames_eq_of_stateChange hstc
  have hdperm := deadNames_perm_of_stateChange hstc hvok
  have hksum := killsSum_of_stateChange hstc ha
  have hdcount := deadCount_of_stateChange hstc hvok
  refine ⟨hnames, by rw [hksum, hdcount, hk], ?_⟩
  cases hev : (generate_event a ts cfg day map dp rng).1 with
  | none =>
    rw [hev] at hlink
    simp only [EventLink] at hlink
    subst hlink
    simp only [List.map_nil, List.append_nil] at hdperm
    dsimp only
    exact hperm.trans hdperm.symm
  | some e =>
    rw [hev] at hlink
    simp only [EventLink] at hlink
    dsimp only
    by_cases hl : e.type = "lethal" ∨ e.type = "item-special lethal"
    · rw [if_pos hl] at hlink
      obtain ⟨hvictims, hne⟩ := hlink
      have hvlt : ∀ v ∈ vs, v < ts.length := fun v hv => (hvok.2 v hv).1
      have hnodupN : (vs.map (fun v => (tget ts v).name)).Nodup :=
        map_names_nodup hnodup hvok.1 hvlt
      have hfn : ∀ n ∈ vs.map (fun v => (tget ts v).name), n ≠ "" ∧ n ∉ fallen := by
        intro n hn
        rcases List.mem_map.mp hn with ⟨v, hv, rfl⟩
        constructor
        · intro h0
          apply hempty
          rw [← h0]
          exact tget_name_mem (hvlt v hv)
        · intro hmem
          have hdm : (tget ts v).name ∈ deadNames ts :=
            hperm.subset (List.mem_append.mpr (Or.inr hmem))
          exact alive_notin_deadNames hnodup (hvlt v hv) (hvok.2 v hv).2.2 hdm
      rw [updateFallen_lethal fallen e _ hl hvictims hnodupN hfn]
      rw [← List.append_assoc]
      exact (hperm.append_right _).trans hdperm.symm
    · rw [if_neg hl] at hlink
      subst hlink
      rw [updateFallen_other fallen e hl]
      simp only [List.map_nil, List.append_nil] at hdperm
      exact hperm.trans hdperm.symm

theorem run_day_slots_inv (cfg : SimulationConfig) (day : Nat)
    (map : List (String × SpecialPayload)) (dp : ℚ) :
    ∀ (slots : Nat) (ts : List Tribute) (evs : List Event) (fallen F : List String)
      (rng : RNG),
      (tnames ts).Nodup → "" ∉ tnames ts →
      List.Perm (F ++ fallen) (deadNames ts) →
      killsSum ts = deadCount ts →
      tnames (run_day_slots cfg day map dp slots ts evs fallen rng).1 = tnames ts ∧
        killsSum (run_day_slots cfg day map dp slots ts evs fallen rng).1 =
          deadCount (run_day_slots cfg day map dp slots ts evs fallen rng).1 ∧
        List.Perm (F ++ (run_day_slots cfg day map dp slots ts evs fallen rng).2.2.1)
          (deadNames (run_day_slots cfg day map dp slots ts evs fallen rng).1)
  | 0, ts, evs, fallen, F, rng, hnodup, hempty, hperm, hk => by
    exact ⟨rfl, hk, hperm⟩
  | Nat.succ slots, ts, evs, fallen, F, rng, hnodup, hempty, hperm, hk => by
    rw [run_day_slots]
    by_cases hliv : livingIdxs ts = []
    · rw [if_pos hliv]
      exact ⟨rfl, hk, hperm⟩
    · rw [if_neg hliv]
      dsimp only
      have hmem := chooseD_mem rng (livingIdxs ts) 0 hliv
      rcases (mem_livingIdxs ts _).mp hmem with ⟨ha, _⟩
      obtain ⟨hnames, hks, hfperm⟩ :=
        slot_step cfg day map dp ts _ _ ha hnodup hempty F fallen hperm hk
      cases hev : (generate_event (rng.chooseD (livingIdxs ts) 0).1 ts cfg day map dp
          (rng.chooseD (livingIdxs ts) 0).2).1 with
      | none =>
        rw [hev] at hfperm
        dsimp only
        obtain ⟨h1, h2, h3⟩ := run_day_slots_inv cfg day map dp slots _ evs fallen F _
          (hnames ▸ hnodup) (hnames ▸ hempty) hfperm hks
        exact ⟨h1.trans hnames, h2, h3⟩
      | some e =>
        rw [hev] at hfperm
        dsimp only
        by_cases hterm : (livingIdxs (generate_event (rng.chooseD (livingIdxs ts) 0).1 ts
            cfg day map dp (rng.chooseD (livingIdxs ts) 0).2).2.1).length ≤ 1
        · rw [if_pos hterm]
          exact ⟨hnames, hks, hfperm⟩
        · rw [if_neg hterm]
          obtain ⟨h1, h2, h3⟩ := run_day_slots_inv cfg day map dp slots _ _ _ F _
            (hnames ▸ hnodup) (hnames ▸ hempty) hfperm hks
          exact ⟨h1.trans hnames, h2, h3⟩

theorem run_sim_days_inv (cfg : SimulationConfig)
    (map : List (String × SpecialPayload)) (desired : Int) (total : Nat) :
    ∀ (fuel : Nat) (ts : List Tribute) (day : Nat) (days : List DayRecord) (rng : RNG),
      (tnames ts).Nodup → "" ∉ tnames ts →
      List.Perm (fallenAll days) (deadNames ts) →
      killsSum ts = deadCount ts →
      tnames (run_sim_days cfg map desired total fuel ts day days rng).1 = tnames ts ∧
        killsSum (run_sim_days cfg map desired total fuel ts day days rng).1 =
          deadCount (run_sim_days cfg map desired total fuel ts day days rng).1 ∧
        List.Perm (fallenAll (run_sim_days cfg map desired total fuel ts day days rng).2.1)
          (deadNames (run_sim_days cfg map desired total fuel ts day days rng).1)
  | 0, ts, day, days, rng, _, _, hperm, hk => ⟨rfl, hk, hperm⟩
  | Nat.succ fuel, ts, day, days, rng, hnodup, hempty, hperm, hk => by
    rw [run_sim_days]
    by_cases hcont : 1 < (livingIdxs ts).length
    · rw [if_pos hcont]
      dsimp only
      set dt := determine_event_count (day + 1) (livingIdxs ts).length total cfg desired rng
        with hdt
      set dp := compute_death_pressure (livingIdxs ts).length (day + 1) dt.1 desired cfg
        with hdp
      set r := run_day_slots cfg (day + 1) map dp dt.1.toNat ts [] [] dt.2 with hr
      obtain ⟨h1, h2, h3⟩ := run_day_slots_inv cfg (day + 1) map dp dt.1.toNat ts [] []
        (fallenAll days) dt.2 hnodup hempty (by simpa using hperm) hk
      rw [← hr] at h1 h2 h3
      obtain ⟨g1, g2, g3⟩ := run_sim_days_inv cfg map desired total fuel r.1 (day + 1)
        (days ++ [{ number := day + 1, bloodbath := day + 1 = 1, events := r.2.1,
                    fallen := r.2.2.1,
                    survivors := (livingIdxs r.1).map (fun i => (tget r.1 i).name) }])
        r.2.2.2 (h1 ▸ hnodup) (h1 ▸ hempty)
        (by rw [fallenAll_append]; exact h3) h2
      exact ⟨g1.trans h1, g2, g3⟩
    · rw [if_neg hcont]
      exact ⟨rfl, hk, hperm⟩

theorem buildTributes_facts (items : List String) :
    ∀ (names : List String) (rng : RNG),
      tnames (buildTributes rng items names).1 = names ∧
      ∀ t ∈ (buildTributes rng items names).1, t.alive = true ∧ t.kills = 0
  | [], rng => ⟨rfl, by simp [buildTributes]⟩
  | n :: ns, rng => by
    obtain ⟨h1, h2⟩ := buildTributes_facts items ns (assign_inventory rng items).2
    rw [buildTributes]
    dsimp only
    refine ⟨?_, ?_⟩
    · rw [tnames] at h1 ⊢
      simp [h1]
    · intro t ht
      rcases List.mem_cons.mp ht with h | h
      · rw [h]
        exact ⟨rfl, rfl⟩
      · exact h2 t h

theorem deadNames_of_all_alive {ts : List Tribute} (h : ∀ t ∈ ts, t.alive = true) :
    deadNames ts = [] := by
  rw [deadNames, List.filter_eq_nil_iff.mpr ?_]
  · rfl
  · intro t ht
    simp [h t ht]

theorem deadCount_of_all_alive {ts : List Tribute} (h : ∀ t ∈ ts, t.alive = true) :
    deadCount ts = 0 := by
  rw [deadCount, List.filter_eq_nil_iff.mpr ?_]
  · rfl
  · intro t ht
    simp [h t ht]

theorem killsSum_of_all_zero {ts : List Tribute} (h : ∀ t ∈ ts, t.kills = 0) :
    killsSum ts = 0 := by
  rw [killsSum]
  refine List.sum_eq_zero ?_
  intro x hx
  rcases List.mem_map.mp hx with ⟨t, ht, rfl⟩
  exact h t ht

theorem head_map_toList {α β : Type} (f : α → β) (l : List α) (h : l.length ≤ 1) :
    (l.head?.map f).toList = l.map f := by
  match l with
  | [] => rfl
  | [x] => rfl
  | x :: y :: rest => simp at h

theorem run_simulation_inv (fuel : Nat) (names : List String) (config : SimulationConfig)
    (hnd : names.Nodup) (hne : "" ∉ names) :
    tnames (run_simulation fuel names config).tributes = names ∧
      killsSum (run_simulation fuel names config).tributes =
        deadCount (run_simulation fuel names config).tributes ∧
      List.Perm (fallenAll (run_simulation fuel names config).days)
        (deadNames (run_simulation fuel names config).tributes) := by
  unfold run_simulation
  dsimp only
  set bt := buildTributes (RNG.ofSeed config.seed) config.inventory_items names with hbt
  obtain ⟨hbn, hbf⟩ := buildTributes_facts config.inventory_items names
    (RNG.ofSeed config.seed)
  rw [← hbt] at hbn hbf
  set r := run_sim_days config (build_special_item_map config)
    (determine_desired_total_days bt.1.length config) bt.1.length fuel bt.1 0 [] bt.2
    with hr
  obtain ⟨h1, h2, h3⟩ := run_sim_days_inv config (build_special_item_map config)
    (determine_desired_total_days bt.1.length config) bt.1.length fuel bt.1 0 [] bt.2
    (hbn ▸ hnd) (hbn ▸ hne)
    (by rw [deadNames_of_all_alive (fun t ht => (hbf t ht).1)]; exact List.Perm.refl _)
    (by rw [killsSum_of_all_zero (fun t ht => (hbf t ht).2),
            deadCount_of_all_alive (fun t ht => (hbf t ht).1)])
  rw [← hr] at h1 h2 h3
  refine ⟨by rw [h1, hbn], h2, ?_⟩
  cases hwi : (livingIdxs r.1).head? with
  | none =>
    simp only [Option.map_none']
    exact h3
  | some i =>
    simp only [Option.map_some']
    by_cases hd : (r.2.1 : List DayRecord) ≠ []
    · rw [if_pos hd, fallenAll_appendVictory]
      exact h3
    · rw [if_neg hd]
      exact h3

theorem run_simulation_winner_form (fuel : Nat) (names : List String)
    (config : SimulationConfig) :
    (run_simulation fuel names config).winner =
      (aliveNames (run_simulation fuel names config).tributes).head? := by
  unfold run_simulation
  dsimp only
  rw [aliveNames_eq_living, List.head?_map]
  cases hwi : (livingIdxs (run_sim_days config (build_special_item_map config)
      (determine_desired_total_days
        (buildTributes (RNG.ofSeed config.seed) config.inventory_items names).1.length
        config)
      (buildTributes (RNG.ofSeed config.seed) config.inventory_items names).1.length fuel
      (buildTributes (RNG.ofSeed config.seed) config.inventory_items names).1 0 []
      (buildTributes (RNG.ofSeed config.seed) config.inventory_items names).2).1).head?
    with
  | none => rfl
  | some i => rfl

theorem run_sim_days_stall (cfg : SimulationConfig)
    (map : List (String × SpecialPayload)) (d : Int) (t : Nat) (fuel : Nat)
    (ts : List Tribute) (day : Nat) (days : List DayRecord) (rng : RNG)
    (h : (livingIdxs ts).length ≤ 1) :
    run_sim_days cfg map d t fuel ts day days rng = (ts, days, rng) := by
  cases fuel with
  | zero => rfl
  | succ fuel =>
    rw [run_sim_days, if_neg (by omega)]

theorem aliveNames_of_all_alive {ts : List Tribute} (h : ∀ t ∈ ts, t.alive = true) :
    aliveNames ts = tnames ts := by
  rw [aliveNames, tnames, List.filter_eq_self.mpr (fun t ht => by simp [h t ht])]

theorem livingIdxs_length_le (ts : List Tribute) : (livingIdxs ts).length ≤ ts.length := by
  refine le_trans (List.length_filter_le _ _) ?_
  simp

theorem run_simulation_small (fuel : Nat) (names : List String) (config : SimulationConfig)
    (hlen : names.length ≤ 1) :
    (run_simulation fuel names config).winner = names.head? := by
  unfold run_simulation
  dsimp only
  set bt := buildTributes (RNG.ofSeed config.seed) config.inventory_items names with hbt
  obtain ⟨hbn, hbf⟩ := buildTributes_facts config.inventory_items names
    (RNG.ofSeed config.seed)
  rw [← hbt] at hbn hbf
  have hblen : bt.1.length = names.length := by
    rw [← hbn, tnames, List.length_map]
  have hliv : (livingIdxs bt.1).length ≤ 1 :=
    le_trans (livingIdxs_length_le bt.1) (by omega)
  rw [run_sim_days_stall _ _ _ _ _ _ _ _ _ hliv]
  dsimp only
  have halive : aliveNames bt.1 = names := by
    rw [aliveNames_of_all_alive (fun t ht => (hbf t ht).1), hbn]
  rw [← halive, aliveNames_eq_living]
  simp only [List.head?_map, Option.map_map]
  rfl

/-! ## Pacing bounds -/

theorem clamp_bounds (x low high : ℚ) (h : low ≤ high) :
    low ≤ clamp x low high ∧ clamp x low high ≤ high :=
  ⟨le_max_left _ _, max_le h (min_le_left _ _)⟩

theorem determine_event_count_nonbloodbath (day alive total : Nat)
    (cfg : SimulationConfig) (desired : Int) (rng : RNG)
    (h : ¬(day = 1 ∧ cfg.bloodbath_event_range ≠ [])) :
    min (required_events_for_progress day alive desired cfg) (alive : Int) ≤
        (determine_event_count day alive total cfg desired rng).1 ∧
      cfg.min_events_per_day ≤ (determine_event_count day alive total cfg desired rng).1 ∧
      (determine_event_count day alive total cfg desired rng).1 ≤
        max cfg.min_events_per_day (alive : Int) := by
  unfold determine_event_count
  rw [if_neg h]
  dsimp only
  generalize (if max 0 (cfg.max_events_per_day - cfg.min_events_per_day) ≠ 0 then
      rng.chooseD [(-1 : Int), 0, 0, 1] 0
    else ((0 : Int), rng)).1 = j
  generalize required_events_for_progress day alive desired cfg = kp
  omega

theorem compute_death_pressure_bounds (alive day : Nat) (daily desired : Int)
    (cfg : SimulationConfig) :
    (6/10 : ℚ) ≤ compute_death_pressure alive day daily desired cfg ∧
      compute_death_pressure alive day daily desired cfg ≤ 4 ∧
      ((alive ≤ 1 ∨ daily ≤ 0) → compute_death_pressure alive day daily desired cfg = 1) := by
  unfold compute_death_pressure
  by_cases hc : alive ≤ 1 ∨ daily ≤ 0
  · rw [if_pos hc]
    norm_num
  · rw [if_neg hc]
    dsimp only
    exact ⟨(clamp_bounds _ _ _ (by norm_num)).1, (clamp_bounds _ _ _ (by norm_num)).2,
      fun hcc => absurd hcc hc⟩

theorem effective_lethal_chance_bounds (cfg : SimulationConfig) (day : Nat) (dp : ℚ) :
    (5/100 : ℚ) ≤ effective_lethal_chance cfg day dp ∧
      effective_lethal_chance cfg day dp ≤ 95/100 := by
  unfold effective_lethal_chance
  exact clamp_bounds _ _ _ (by norm_num)

/-! ## Lethal-branch clamping (the starvation question) -/

theorem genLethal_clamps (a : Nat) (ts : List Tribute) (cfg : SimulationConfig)
    (day : Nat) (dp : ℚ) (rng : RNG)
    (h1 : 1 < (livingIdxs ts).length)
    (h2 : (rng.randFloat).1 < effective_lethal_chance cfg day dp) :
    ∃ e, (genLethal a ts cfg day dp rng).1 = some e ∧ e.type = "lethal" ∧
      ∃ victimNames, e.meta.victims = some victimNames ∧
        victimNames.length =
          min (normalize_lethal_entry ((rng.randFloat).2.chooseD
              (if cfg.lethal_events = []
               then [RawLethal.str "\x7bkiller\x7d eliminates \x7bvictim\x7d."]
               else cfg.lethal_events) (RawLethal.str "")).1).victim_count
            ((livingIdxs ts).filter (fun i => i ≠ a)).length ∧
        1 ≤ victimNames.length := by
  unfold genLethal
  dsimp only
  rw [if_pos h1, if_pos h2]
  dsimp only
  have hca : 1 ≤ ((livingIdxs ts).filter (fun i => i ≠ a)).length := by
    have := length_filter_ne_lower a (nodup_livingIdxs ts)
    omega
  have htc : 1 ≤ (normalize_lethal_entry ((rng.randFloat).2.chooseD
      (if cfg.lethal_events = []
       then [RawLethal.str "\x7bkiller\x7d eliminates \x7bvictim\x7d."]
       else cfg.lethal_events) (RawLethal.str "")).1).victim_count :=
    normalize_lethal_victim_count_pos _
  have hminpos : 1 ≤ min (normalize_lethal_entry ((rng.randFloat).2.chooseD
      (if cfg.lethal_events = []
       then [RawLethal.str "\x7bkiller\x7d eliminates \x7bvictim\x7d."]
       else cfg.lethal_events) (RawLethal.str "")).1).victim_count
      ((livingIdxs ts).filter (fun i => i ≠ a)).length := by
    rw [Nat.le_min]
    exact ⟨htc, hca⟩
  have hne0 : ¬(min (normalize_lethal_entry ((rng.randFloat).2.chooseD
      (if cfg.lethal_events = []
       then [RawLethal.str "\x7bkiller\x7d eliminates \x7bvictim\x7d."]
       else cfg.lethal_events) (RawLethal.str "")).1).victim_count
      ((livingIdxs ts).filter (fun i => i ≠ a)).length = 0) := by omega
  refine ⟨_, rfl, rfl, _, rfl, ?_, ?_⟩
  · rw [List.length_map, if_neg hne0]
    exact sampleIdx_length (min_le_right _ _)
  · rw [List.length_map, if_neg hne0, sampleIdx_length (min_le_right _ _)]
    exact hminpos

/-! ## Special-item branch behaviour -/

theorem special_lethal_behaviour (a : Nat) (ts : List Tribute) (cfg : SimulationConfig)
    (day : Nat) (map : List (String × SpecialPayload)) (dp : ℚ) (rng : RNG)
    (sc : List String) (chosen : String) (payload : SpecialPayload)
    (T : SpecialTemplate × RNG) (ha : a < ts.length)
    (hsc : sc = (tget ts a).inventory.filter (fun it => (map.lookup it).isSome))
    (hscne : sc ≠ [])
    (hroll : (rng.randFloat).1 < cfg.special_item_event_chance)
    (hchosen : chosen = ((rng.randFloat).2.chooseD sc "").1)
    (hpayload : payload = (map.lookup chosen).getD default)
    (hpe : payload.events ≠ [])
    (hT : T = ((rng.randFloat).2.chooseD sc "").2.chooseD payload.events default)
    (hlethal : T.1.lethal = true) (hvc : T.1.victim_count ≠ 0)
    (hge : T.1.victim_count ≤ ((livingIdxs ts).filter (fun i => i ≠ a)).length) :
    ∃ e, (generate_event a ts cfg day map dp rng).1 = some e ∧
      e.type = "item-special lethal" ∧
      (∀ v ∈ (T.2.sampleIdx ((livingIdxs ts).filter (fun i => i ≠ a))
          T.1.victim_count).1,
        (tget (generate_event a ts cfg day map dp rng).2.1 v).alive = false) ∧
      (tget (generate_event a ts cfg day map dp rng).2.1 a).kills =
        (tget ts a).kills +
          (T.2.sampleIdx ((livingIdxs ts).filter (fun i => i ≠ a))
            T.1.victim_count).1.length ∧
      (T.1.consumes = true →
        (tget (generate_event a ts cfg day map dp rng).2.1 a).inventory =
            (tget ts a).inventory.erase chosen ∧
          ((tget (generate_event a ts cfg day map dp rng).2.1 a).inventory).count chosen
              + 1 =
            ((tget ts a).inventory).count chosen) ∧
      (T.1.consumes = false →
        (tget (generate_event a ts cfg day map dp rng).2.1 a).inventory =
          (tget ts a).inventory) := by
  have hchmem : chosen ∈ (tget ts a).inventory := by
    have := chooseD_mem ((rng.randFloat).2) sc "" hscne
    rw [← hchosen] at this
    rw [hsc] at this
    exact List.mem_of_mem_filter this
  unfold generate_event
  dsimp only
  rw [← hsc, if_pos hscne, if_pos hroll, ← hchosen, ← hpayload, if_pos hpe, ← hT]
  have habort : ¬(T.1.victim_count ≠ 0 ∧
      ((livingIdxs ts).filter (fun i => i ≠ a)).length < T.1.victim_count) := by
    omega
  rw [if_neg habort, if_pos hvc]
  have hle : (T.1.lethal = true) ∧ T.1.victim_count ≠ 0 := ⟨hlethal, hvc⟩
  simp only [if_pos hle]
  have hvmem : ∀ v ∈ (T.2.sampleIdx ((livingIdxs ts).filter (fun i => i ≠ a))
      T.1.victim_count).1, v < ts.length ∧ v ≠ a ∧ (tget ts v).alive = true :=
    fun v hv => mem_candidates (sampleIdx_mem v hv)
  have hanot : a ∉ (T.2.sampleIdx ((livingIdxs ts).filter (fun i => i ≠ a))
      T.1.victim_count).1 := fun h => (hvmem a h).2.1 rfl
  have hvlt : ∀ v ∈ (T.2.sampleIdx ((livingIdxs ts).filter (fun i => i ≠ a))
      T.1.victim_count).1, v < ts.length := fun v hv => (hvmem v hv).1
  have hk1 : ∀ j, tget (killAll ts (T.2.sampleIdx
      ((livingIdxs ts).filter (fun i => i ≠ a)) T.1.victim_count).1) j =
      if j ∈ (T.2.sampleIdx ((livingIdxs ts).filter (fun i => i ≠ a))
          T.1.victim_count).1
      then { tget ts j with alive := false } else tget ts j :=
    fun j => tget_killAll _ ts j hvlt
  have hlen1 := length_killAll
    (T.2.sampleIdx ((livingIdxs ts).filter (fun i => i ≠ a)) T.1.victim_count).1 ts
  have h2a : tget (modifyAt (killAll ts (T.2.sampleIdx
      ((livingIdxs ts).filter (fun i => i ≠ a)) T.1.victim_count).1) a fun t =>
        { t with kills := t.kills + (T.2.sampleIdx
          ((livingIdxs ts).filter (fun i => i ≠ a)) T.1.victim_count).1.length }) a =
      { tget ts a with kills := (tget ts a).kills + (T.2.sampleIdx
        ((livingIdxs ts).filter (fun i => i ≠ a)) T.1.victim_count).1.length } := by
    rw [tget_modifyAt, hlen1, if_pos ⟨rfl, ha⟩, hk1 a, if_neg hanot]
  have h2v : ∀ v ∈ (T.2.sampleIdx ((livingIdxs ts).filter (fun i => i ≠ a))
      T.1.victim_count).1,
      tget (modifyAt (killAll ts (T.2.sampleIdx
        ((livingIdxs ts).filter (fun i => i ≠ a)) T.1.victim_count).1) a fun t =>
          { t with kills := t.kills + (T.2.sampleIdx
            ((livingIdxs ts).filter (fun i => i ≠ a)) T.1.victim_count).1.length }) v =
        { tget ts v with alive := false } := by
    intro v hv
    rw [tget_modifyAt, hlen1, if_neg (fun hc => (hvmem v hv).2.1 hc.1), hk1 v, if_pos hv]
  by_cases hcf : T.1.consumes = true
  · simp only [if_pos hcf]
    refine ⟨_, rfl, rfl, ?_, ?_, ?_, ?_⟩
    · intro v hv
      rw [tget_modifyAt, length_modifyAt, hlen1,
        if_neg (fun hc => (hvmem v hv).2.1 hc.1), h2v v hv]
    · rw [tget_modifyAt, length_modifyAt, hlen1, if_pos ⟨rfl, ha⟩, h2a]
    · intro _
      rw [tget_modifyAt, length_modifyAt, hlen1, if_pos ⟨rfl, ha⟩, h2a]
      refine ⟨rfl, ?_⟩
      have hcnt := List.count_erase_self chosen (tget ts a).inventory
      have hpos : 0 < ((tget ts a).inventory).count chosen :=
        List.count_pos_iff.mpr hchmem
      simp only [hcnt]
      omega
    · intro hfalse
      rw [hcf] at hfalse
      exact absurd hfalse (by decide)
  · simp only [if_neg hcf]
    refine ⟨_, rfl, rfl, ?_, ?_, ?_, ?_⟩
    · intro v hv
      exact congrArg Tribute.alive (h2v v hv)
    · rw [h2a]
    · intro htrue
      exact absurd htrue hcf
    · intro _
      rw [h2a]

/-! ## Well-formed templates for the rendering claim -/

theorem wordChar_facts (c : Char) (h : isWordChar c = true) :
    c ≠ lbrace ∧ c ≠ rbrace ∧
      ¬(c = ':' ∨ c = '!' ∨ c = '.' ∨ c = '[') := by
  refine ⟨?_, ?_, ?_⟩
  · rintro rfl
    revert h
    decide
  · rintro rfl
    revert h
    decide
  · rintro (rfl | rfl | rfl | rfl) <;> revert h <;> decide

theorem string_mk_data (s : String) : String.mk s.data = s := rfl

theorem renderField_good (safe : Bool) (n : String) (repl : List (String × String))
    (hne : n.data ≠ []) (hw : ∀ c ∈ n.data, isWordChar c = true)
    (hnd : ¬(n.data.all Char.isDigit = true)) :
    renderField safe n repl =
      match repl.lookup n with
      | some v => .ok v
      | none =>
        if safe then .ok (lbrace.toString ++ n ++ rbrace.toString)
        else .error ("KeyError: " ++ n) := by
  unfold renderField
  have hempty : n.isEmpty = false := by
    rw [Bool.eq_false_iff]
    intro hemp
    rw [String.isEmpty_iff] at hemp
    apply hne
    rw [hemp]
  rw [hempty]
  have hnotany : n.data.any (fun c => decide (c = ':' ∨ c = '!' ∨ c = '.' ∨ c = '[')) =
      false := by
    rw [Bool.eq_false_iff]
    intro hany
    rcases List.any_eq_true.mp hany with ⟨c, hc, hcp⟩
    exact (wordChar_facts c (hw c hc)).2.2 (of_decide_eq_true hcp)
  rw [if_neg (by simp), if_neg hnd,
    if_neg (show ¬(n.data.any
        (fun c => decide (c = ':' ∨ c = '!' ∨ c = '.' ∨ c = '[')) = true) from by
      rw [hnotany]; decide)]

theorem fmtAux_lit (safe : Bool) (repl : List (String × String)) (c : Char)
    (rest : List Char) (hc1 : c ≠ lbrace) (hc2 : c ≠ rbrace) :
    fmtAux safe repl (rest.length + 1) (c :: rest) none =
      (fmtAux safe repl rest.length rest none).map (fun s => c.toString ++ s) := by
  rw [fmtAux.eq_def]
  dsimp only
  rw [if_neg hc1, if_neg hc2]

theorem fmtAux_field (safe : Bool) (repl : List (String × String)) :
    ∀ (fcs : List Char) (acc rest : List Char),
      (∀ c ∈ fcs, isWordChar c = true) →
      fmtAux safe repl (fcs ++ rbrace :: rest).length (fcs ++ rbrace :: rest)
          (some acc) =
        match renderField safe (String.mk (acc.reverse ++ fcs)) repl with
        | .ok v => (fmtAux safe repl rest.length rest none).map (fun s => v ++ s)
        | .error e => .error e
  | [], acc, rest, _ => by
    simp only [List.nil_append, List.append_nil, List.length_cons]
    rw [fmtAux.eq_def]
    dsimp only
    rw [if_pos rfl]
  | f :: fcs, acc, rest, hw => by
    have hf := hw f (by simp)
    obtain ⟨hf1, hf2, _⟩ := wordChar_facts f hf
    simp only [List.cons_append, List.length_cons]
    rw [fmtAux.eq_def]
    dsimp only
    rw [if_neg hf2, if_neg hf1]
    have ih := fmtAux_field safe repl fcs (f :: acc) rest
      (fun c hc => hw c (by simp [hc]))
    simp only [List.length_append, List.length_cons] at ih ⊢
    rw [ih, List.reverse_cons, List.append_assoc]
    rfl

theorem format_text_exc_simple (repl : List (String × String)) :
    ∀ (ps : List TemplatePart), (∀ p ∈ ps, goodPart p = true) →
      format_text_exc (assembleTemplate ps) repl = Except.ok (renderParts repl ps)
  | [], _ => rfl
  | .lit c :: ps, h => by
    have hg := h (.lit c) (by simp)
    have hc1 : c ≠ lbrace := by
      intro heq
      subst heq
      simp [goodPart] at hg
    have hc2 : c ≠ rbrace := by
      intro heq
      subst heq
      simp [goodPart] at hg
    have hchars : (assembleTemplate (.lit c :: ps)).data =
        c :: (assembleTemplate ps).data := by
      show (String.mk (partChars (.lit c)) ++ assembleTemplate ps).data = _
      rw [String.data_append]
      rfl
    have ih := format_text_exc_simple repl ps (fun p hp => h p (by simp [hp]))
    unfold format_text_exc at ih ⊢
    rw [hchars, List.length_cons, fmtAux_lit true repl c _ hc1 hc2, ih]
    rfl
  | .ph n :: ps, h => by
    have hg := h (.ph n) (by simp)
    simp only [goodPart, Bool.and_eq_true, Bool.not_eq_true'] at hg
    obtain ⟨⟨hgne, hgword⟩, hgdig⟩ := hg
    have hne : n.data ≠ [] := by
      intro hnil
      rw [hnil] at hgne
      exact absurd hgne (by decide)
    have hword : ∀ c ∈ n.data, isWordChar c = true := by
      intro c hcm
      exact List.all_eq_true.mp hgword c hcm
    have hnd : ¬(n.data.all Char.isDigit = true) := by
      rw [hgdig]
      decide
    have hchars : (assembleTemplate (.ph n :: ps)).data =
        lbrace :: (n.data ++ rbrace :: (assembleTemplate ps).data) := by
      show (String.mk (partChars (.ph n)) ++ assembleTemplate ps).data = _
      rw [String.data_append]
      simp [partChars]
    have ih := format_text_exc_simple repl ps (fun p hp => h p (by simp [hp]))
    unfold format_text_exc at ih ⊢
    rw [hchars]
    cases hdata : n.data with
    | nil => exact absurd hdata hne
    | cons m ms =>
      have hm := hword m (by rw [hdata]; simp)
      obtain ⟨hm1, _, _⟩ := wordChar_facts m hm
      rw [List.length_cons, fmtAux.eq_def]
      dsimp only
      rw [if_pos rfl]
      simp only [List.cons_append, List.length_cons]
      rw [if_neg hm1]
      have hfield := fmtAux_field true repl (m :: ms) []
        (assembleTemplate ps).data (fun c hcm => hword c (by rw [hdata]; exact hcm))
      simp only [List.cons_append, List.length_cons, List.reverse_nil,
        List.nil_append] at hfield
      rw [hfield]
      rw [show String.mk (m :: ms) = n from by rw [← hdata]]
      rw [renderField_good true n repl hne hword hnd]
      have ih2 : fmtAux true repl (assembleTemplate ps).length
          (assembleTemplate ps).data none = Except.ok (renderParts repl ps) := by
        simpa using ih
      cases hlook : repl.lookup n with
      | some v =>
        simp [hlook, ih, ih2, renderParts, renderPart, Except.map]
      | none =>
        simp [hlook, ih, ih2, renderParts, renderPart, Except.map]


/-! ## The claims -/

set_option maxRecDepth 100000

/-- C1: determinism — in the embedding every random draw is derived
from the configured seed through `RNG.ofSeed`, so `run_simulation` is a
function of (fuel, roster, configuration): two invocations with an
identical integer seed, configuration and roster return identical
results — the same tribute snapshots, the same ordered day records with
the same events and text, and the same winner. -/
theorem C1_determinism (fuel : Nat) (names : List String)
    (cfg1 cfg2 : SimulationConfig) (s : Int)
    (hseed : cfg1.seed = some s) (hcfg : cfg1 = cfg2) :
    run_simulation fuel names cfg1 = run_simulation fuel names cfg2 := by
  rw [hcfg]

/-- Witness for C1 at seed `0`, roster `["A", "B"]`. -/
theorem C1_determinism_witness :
    cexConfig.seed = some 0 ∧ cexConfig = cexConfig ∧
      run_simulation 10 ["A", "B"] cexConfig = run_simulation 10 ["A", "B"] cexConfig :=
  ⟨rfl, rfl, C1_determinism 10 ["A", "B"] cexConfig cexConfig 0 rfl rfl⟩

/-- C2 counterexample: the roster `["X", ""]` has two distinct names,
the run finishes with winner `"X"` and one dead tribute, yet the union
of the `fallen` lists across all days is empty — the falsy name `""` is
dropped by the merge guard `if name and name not in fallen_today`
(line 585 of the source), so fallen-plus-winner misses a roster name. -/
theorem C2_counterexample :
    (["X", ""] : List String).Nodup ∧ 2 ≤ (["X", ""] : List String).length ∧
      (run_simulation 10 ["X", ""] cexConfig).winner = some "X" ∧
      deadCount (run_simulation 10 ["X", ""] cexConfig).tributes = 1 ∧
      fallenAll (run_simulation 10 ["X", ""] cexConfig).days = [] :=
  ⟨by decide, by decide, by decide, by decide, by decide⟩

/-- C2 (amended): for a roster of distinct NONEMPTY names, the fallen
names across all days together with the names of the tributes still
alive at the end are a permutation of the roster (so each name occurs
exactly once on one side of the partition), and the reported winner is
the first surviving name (in particular, when the run finishes with one
survivor, fallen names plus the winner partition the roster). -/
theorem C2_partition (fuel : Nat) (names : List String) (config : SimulationConfig)
    (hnd : names.Nodup) (hne : "" ∉ names) :
    List.Perm
        (fallenAll (run_simulation fuel names config).days ++
          aliveNames (run_simulation fuel names config).tributes) names ∧
      (run_simulation fuel names config).winner =
        (aliveNames (run_simulation fuel names config).tributes).head? := by
  obtain ⟨h1, _, h3⟩ := run_simulation_inv fuel names config hnd hne
  refine ⟨?_, run_simulation_winner_form fuel names config⟩
  have hlast : List.Perm (tnames (run_simulation fuel names config).tributes) names := by
    rw [h1]
  exact (h3.append_right _).trans
    ((deadAlive_perm (run_simulation fuel names config).tributes).trans hlast)

/-- Witness for C2 at the roster `["A", "B"]`. -/
theorem C2_partition_witness :
    (["A", "B"] : List String).Nodup ∧ "" ∉ (["A", "B"] : List String) ∧
      (List.Perm
          (fallenAll (run_simulation 10 ["A", "B"] cexConfig).days ++
            aliveNames (run_simulation 10 ["A", "B"] cexConfig).tributes) ["A", "B"] ∧
        (run_simulation 10 ["A", "B"] cexConfig).winner =
          (aliveNames (run_simulation 10 ["A", "B"] cexConfig).tributes).head?) :=
  ⟨by decide, by decide, C2_partition 10 ["A", "B"] cexConfig (by decide) (by decide)⟩

/-- C3 counterexample: in the roster `["Y", ""]` the kills sum and the
dead count are both `1`, but the total number of fallen names across
all day records is `0`: the parenthetical equivalence of the claim
(dead count = total fallen names) fails for the falsy name `""`. -/
theorem C3_counterexample :
    killsSum (run_simulation 10 ["Y", ""] cexConfig).tributes = 1 ∧
      deadCount (run_simulation 10 ["Y", ""] cexConfig).tributes = 1 ∧
      (fallenAll (run_simulation 10 ["Y", ""] cexConfig).days).length = 0 :=
  ⟨by decide, by decide, by decide⟩

/-- C3 (amended): for a roster of distinct nonempty names, after
`run_simulation` the sum of the kills counters equals the number of
tributes whose alive flag is false, and that number also equals the
total number of fallen names across all day records. -/
theorem C3_kill_accounting (fuel : Nat) (names : List String) (config : SimulationConfig)
    (hnd : names.Nodup) (hne : "" ∉ names) :
    killsSum (run_simulation fuel names config).tributes =
        deadCount (run_simulation fuel names config).tributes ∧
      (fallenAll (run_simulation fuel names config).days).length =
        deadCount (run_simulation fuel names config).tributes := by
  obtain ⟨_, h2, h3⟩ := run_simulation_inv fuel names config hnd hne
  exact ⟨h2, by rw [h3.length_eq, deadCount_eq_length_deadNames]⟩

/-- Witness for C3 at the roster `["A", "B"]`. -/
theorem C3_kill_accounting_witness :
    (["A", "B"] : List String).Nodup ∧ "" ∉ (["A", "B"] : List String) ∧
      (killsSum (run_simulation 10 ["A", "B"] cexConfig).tributes =
          deadCount (run_simulation 10 ["A", "B"] cexConfig).tributes ∧
        (fallenAll (run_simulation 10 ["A", "B"] cexConfig).days).length =
          deadCount (run_simulation 10 ["A", "B"] cexConfig).tributes) :=
  ⟨by decide, by decide, C3_kill_accounting 10 ["A", "B"] cexConfig (by decide) (by decide)⟩

/-- C4 counterexample: the only lethal template of `c4Config` has
victim arity `2`, and with actor `0` of the two-tribute roster only `1`
living non-actor exists; still the lethal branch produces an event and
kills tribute `1` — it clamps the victim count instead of aborting. -/
theorem C4_counterexample :
    (normalize_lethal_entry
        (RawLethal.str
          "\x7bkiller\x7d kills \x7bvictim\x7d and \x7bvictim2\x7d.")).victim_count = 2 ∧
      ((livingIdxs c4Tributes).filter (fun i => i ≠ 0)).length = 1 ∧
      ((genLethal 0 c4Tributes c4Config 1 1 (RNG.ofSeed (some 0))).1).isSome = true ∧
      (tget (genLethal 0 c4Tributes c4Config 1 1 (RNG.ofSeed (some 0))).2.1 1).alive
        = false :=
  ⟨by decide, by decide, by decide, by decide⟩

/-- C4 (amended): whenever the lethal branch fires (more than one
living tribute and a successful probability roll), it always yields a
lethal event; the victim count is the template's arity clamped to the
number of living non-actors (raised back to `1` when that clamp gives
`0`), never an abort. -/
theorem C4_lethal_clamps (a : Nat) (ts : List Tribute) (cfg : SimulationConfig)
    (day : Nat) (dp : ℚ) (rng : RNG)
    (h1 : 1 < (livingIdxs ts).length)
    (h2 : (rng.randFloat).1 < effective_lethal_chance cfg day dp) :
    ∃ e, (genLethal a ts cfg day dp rng).1 = some e ∧ e.type = "lethal" ∧
      ∃ victimNames, e.meta.victims = some victimNames ∧
        victimNames.length =
          min (normalize_lethal_entry ((rng.randFloat).2.chooseD
              (if cfg.lethal_events = []
               then [RawLethal.str "\x7bkiller\x7d eliminates \x7bvictim\x7d."]
               else cfg.lethal_events) (RawLethal.str "")).1).victim_count
            ((livingIdxs ts).filter (fun i => i ≠ a)).length ∧
        1 ≤ victimNames.length :=
  genLethal_clamps a ts cfg day dp rng h1 h2

/-- Witness for C4 at the two-victim template scenario. -/
theorem C4_lethal_clamps_witness :
    1 < (livingIdxs c4Tributes).length ∧
      ((RNG.ofSeed (some 0)).randFloat).1 < effective_lethal_chance c4Config 1 1 ∧
      ∃ e, (genLethal 0 c4Tributes c4Config 1 1 (RNG.ofSeed (some 0))).1 = some e ∧
        e.type = "lethal" ∧
        ∃ victimNames, e.meta.victims = some victimNames ∧
          victimNames.length =
            min (normalize_lethal_entry (((RNG.ofSeed (some 0)).randFloat).2.chooseD
                (if c4Config.lethal_events = []
                 then [RawLethal.str "\x7bkiller\x7d eliminates \x7bvictim\x7d."]
                 else c4Config.lethal_events) (RawLethal.str "")).1).victim_count
              ((livingIdxs c4Tributes).filter (fun i => i ≠ 0)).length ∧
          1 ≤ victimNames.length :=
  ⟨by decide, by decide,
    C4_lethal_clamps 0 c4Tributes c4Config 1 1 (RNG.ofSeed (some 0))
      (by decide) (by decide)⟩

/-- C5 counterexample: a singleton roster reports a winner — the
source's winner extraction (`alive_tributes[0]` after the day loop,
lines 606-614) does not special-case a roster that never had two
tributes, so `["Solo"]` yields winner `"Solo"`, not `none`. -/
theorem C5_counterexample :
    (run_simulation 10 ["Solo"] cexConfig).winner = some "Solo" ∧
      (run_simulation 10 ([] : List String) cexConfig).winner = none :=
  ⟨by decide, by decide⟩

/-- C5 (amended): for a roster of at most one name the day loop never
runs and the winner is the head of the roster — `none` for an empty
roster, the lone name for a singleton. -/
theorem C5_small_roster (fuel : Nat) (names : List String) (config : SimulationConfig)
    (hlen : names.length ≤ 1) :
    (run_simulation fuel names config).winner = names.head? :=
  run_simulation_small fuel names config hlen

/-- Witness for C5 at the singleton roster. -/
theorem C5_small_roster_witness :
    (["Solo"] : List String).length ≤ 1 ∧
      (run_simulation 3 ["Solo"] cexConfig).winner = (["Solo"] : List String).head? :=
  ⟨by decide, C5_small_roster 3 ["Solo"] cexConfig (by decide)⟩

/-- C6 counterexample: the special template of `c6Rule` requires one
victim (`victim_count = 1`); in `c6Result` the branch succeeds and
samples victim `"B"` (recorded in the event metadata), yet `"B"` stays
alive and the actor's kill count stays `0`: only templates flagged
`lethal` kill their sampled victims (`lethal_event = bool(...)`,
line 654 of the source), contradicting the claim for every template
that requires at least one victim. -/
theorem C6_counterexample :
    ((normalize_special_event
        (RawSpecial.str "\x7bperson\x7d shows \x7bvictim\x7d the orb.") true).map
      (fun t => t.victim_count)) = some 1 ∧
      (c6Result.1.map (fun e => e.type)) = some "item-special" ∧
      (c6Result.1.map (fun e => e.meta.victims)) = some (some ["B"]) ∧
      (tget c6Result.2.1 1).alive = true ∧
      (tget c6Result.2.1 0).kills = 0 ∧
      (tget c6Result.2.1 0).inventory = [] :=
  ⟨by decide, by decide, by decide, by decide, by decide, by decide⟩

/-- C6 (amended): when the special-item branch succeeds with a LETHAL
template requiring at least one victim, every sampled victim is marked
dead, the actor's kill count increases by the number of sampled
victims, and if the template (whose flag already incorporates the
rule-level default) marks the item as consumed, exactly one instance of
the item leaves the actor's inventory (count drops by one); with the
flag unset the inventory is untouched. -/
theorem C6_special_behaviour (a : Nat) (ts : List Tribute) (cfg : SimulationConfig)
    (day : Nat) (map : List (String × SpecialPayload)) (dp : ℚ) (rng : RNG)
    (sc : List String) (chosen : String) (payload : SpecialPayload)
    (T : SpecialTemplate × RNG) (ha : a < ts.length)
    (hsc : sc = (tget ts a).inventory.filter (fun it => (map.lookup it).isSome))
    (hscne : sc ≠ [])
    (hroll : (rng.randFloat).1 < cfg.special_item_event_chance)
    (hchosen : chosen = ((rng.randFloat).2.chooseD sc "").1)
    (hpayload : payload = (map.lookup chosen).getD default)
    (hpe : payload.events ≠ [])
    (hT : T = ((rng.randFloat).2.chooseD sc "").2.chooseD payload.events default)
    (hlethal : T.1.lethal = true) (hvc : T.1.victim_count ≠ 0)
    (hge : T.1.victim_count ≤ ((livingIdxs ts).filter (fun i => i ≠ a)).length) :
    ∃ e, (generate_event a ts cfg day map dp rng).1 = some e ∧
      e.type = "item-special lethal" ∧
      (∀ v ∈ (T.2.sampleIdx ((livingIdxs ts).filter (fun i => i ≠ a))
          T.1.victim_count).1,
        (tget (generate_event a ts cfg day map dp rng).2.1 v).alive = false) ∧
      (tget (generate_event a ts cfg day map dp rng).2.1 a).kills =
        (tget ts a).kills +
          (T.2.sampleIdx ((livingIdxs ts).filter (fun i => i ≠ a))
            T.1.victim_count).1.length ∧
      (T.1.consumes = true →
        (tget (generate_event a ts cfg day map dp rng).2.1 a).inventory =
            (tget ts a).inventory.erase chosen ∧
          ((tget (generate_event a ts cfg day map dp rng).2.1 a).inventory).count chosen
              + 1 =
            ((tget ts a).inventory).count chosen) ∧
      (T.1.consumes = false →
        (tget (generate_event a ts cfg day map dp rng).2.1 a).inventory =
          (tget ts a).inventory) :=
  special_lethal_behaviour a ts cfg day map dp rng sc chosen payload T ha hsc hscne
    hroll hchosen hpayload hpe hT hlethal hvc hge

/-- Witness for C6 at the lethal `"dagger"` scenario: the branch fires,
the sampled victim dies and the consumed item leaves the inventory. -/
theorem C6_special_behaviour_witness :
    ((generate_event 0 c6LTributes c6LConfig 1 c6LMap 1
        (RNG.ofSeed (some 0))).1.map (fun e => e.type)) = some "item-special lethal" ∧
      (tget (generate_event 0 c6LTributes c6LConfig 1 c6LMap 1
        (RNG.ofSeed (some 0))).2.1 1).alive = false ∧
      (tget (generate_event 0 c6LTributes c6LConfig 1 c6LMap 1
        (RNG.ofSeed (some 0))).2.1 0).inventory = [] := by
  obtain ⟨e, he, ht, hdead, hkills, hcons, hncons⟩ :=
    C6_special_behaviour 0 c6LTributes c6LConfig 1 c6LMap 1 (RNG.ofSeed (some 0))
      c6LSc c6LChosen c6LPayload c6LT (by decide) rfl (by decide) (by decide) rfl rfl
      (by decide) rfl (by decide) (by decide) (by decide)
  refine ⟨by rw [he, Option.map_some', ht], hdead 1 (by decide), ?_⟩
  have h := (hcons (by decide)).1
  rw [h]
  decide

/-- C7 counterexample: on day 1 (the bloodbath) with `3` living
tributes the default configuration schedules `6` events — the bloodbath
branch (lines 497-504 of the source) returns `randint` over the raised
bloodbath range directly, skipping both the pressure floor and the
`[min_events_per_day, alive_count]` bound of the claim, and `6` exceeds
the alive count `3`. -/
theorem C7_counterexample :
    (determine_event_count 1 3 24 ({} : SimulationConfig) 7 (RNG.ofSeed (some 0))).1
        = 6 ∧
      ({} : SimulationConfig).min_events_per_day = 2 ∧
      ¬((determine_event_count 1 3 24 ({} : SimulationConfig) 7
          (RNG.ofSeed (some 0))).1 ≤ (3 : Int)) :=
  ⟨by decide, by decide, by decide⟩

/-- C7 (amended): on every NON-bloodbath day (any day other than day 1
when a bloodbath range is configured), the scheduled count is at least
the pressure requirement capped by the alive count, at least
`min_events_per_day`, and at most `max min_events_per_day alive_count`
(the upper bound `alive_count` of the claim holds only when
`min_events_per_day` does not itself exceed it). -/
theorem C7_nonbloodbath_bounds (day alive total : Nat)
    (cfg : SimulationConfig) (desired : Int) (rng : RNG)
    (h : ¬(day = 1 ∧ cfg.bloodbath_event_range ≠ [])) :
    min (required_events_for_progress day alive desired cfg) (alive : Int) ≤
        (determine_event_count day alive total cfg desired rng).1 ∧
      cfg.min_events_per_day ≤ (determine_event_count day alive total cfg desired rng).1 ∧
      (determine_event_count day alive total cfg desired rng).1 ≤
        max cfg.min_events_per_day (alive : Int) :=
  determine_event_count_nonbloodbath day alive total cfg desired rng h

/-- Witness for C7 on day 2 of the default configuration. -/
theorem C7_nonbloodbath_bounds_witness :
    ¬((2 : Nat) = 1 ∧ ({} : SimulationConfig).bloodbath_event_range ≠ []) ∧
      (min (required_events_for_progress 2 3 7 ({} : SimulationConfig)) (3 : Int) ≤
          (determine_event_count 2 3 24 ({} : SimulationConfig) 7
            (RNG.ofSeed (some 0))).1 ∧
        ({} : SimulationConfig).min_events_per_day ≤
          (determine_event_count 2 3 24 ({} : SimulationConfig) 7
            (RNG.ofSeed (some 0))).1 ∧
        (determine_event_count 2 3 24 ({} : SimulationConfig) 7
            (RNG.ofSeed (some 0))).1 ≤
          max ({} : SimulationConfig).min_events_per_day (3 : Int)) :=
  ⟨by decide,
    C7_nonbloodbath_bounds 2 3 24 ({} : SimulationConfig) 7 (RNG.ofSeed (some 0))
      (by decide)⟩

/-- C8: `compute_death_pressure` always lands in `[6/10, 4]` (the
claim's `[0.6, 4.0]`), returns exactly `1` when at most one tribute is
alive or no events are scheduled, and the effective lethal probability
of `generate_event` (baseline plus day-1 bonus, times the pressure
multiplier) is always clamped into `[5/100, 95/100]`. -/
theorem C8_pressure_and_chance_bounds (alive day : Nat) (daily desired : Int)
    (cfg : SimulationConfig) (dy : Nat) (dp : ℚ) :
    ((6/10 : ℚ) ≤ compute_death_pressure alive day daily desired cfg ∧
        compute_death_pressure alive day daily desired cfg ≤ 4) ∧
      ((alive ≤ 1 ∨ daily ≤ 0) → compute_death_pressure alive day daily desired cfg = 1) ∧
      ((5/100 : ℚ) ≤ effective_lethal_chance cfg dy dp ∧
        effective_lethal_chance cfg dy dp ≤ 95/100) := by
  obtain ⟨h1, h2, h3⟩ := compute_death_pressure_bounds alive day daily desired cfg
  exact ⟨⟨h1, h2⟩, h3, effective_lethal_chance_bounds cfg dy dp⟩

/-- Witness for C8: the early-return case at one living tribute, and
the clamp bounds at a concrete pressure. -/
theorem C8_pressure_and_chance_bounds_witness :
    ((1 : Nat) ≤ 1 ∨ (0 : Int) ≤ 0) ∧
      compute_death_pressure 1 5 0 7 ({} : SimulationConfig) = 1 ∧
      (6/10 : ℚ) ≤ compute_death_pressure 4 2 3 7 ({} : SimulationConfig) :=
  ⟨Or.inl (by decide),
    (C8_pressure_and_chance_bounds 1 5 0 7 ({} : SimulationConfig) 1 1).2.1
      (Or.inl (by decide)),
    ((C8_pressure_and_chance_bounds 4 2 3 7 ({} : SimulationConfig) 1 1).1).1⟩

/-- C9 counterexample: the template consisting of the single character
`\x7b` makes `str.format_map` raise
`ValueError: single '\x7b' encountered in format string`; the rendering
helper propagates the exception instead of returning text, refuting
"never raising an error" for arbitrary template strings. -/
theorem C9_counterexample :
    format_text_exc (String.mk [lbrace]) []
        = Except.error "ValueError: single open brace encountered in format string" ∧
      format_template_text (String.mk [lbrace]) []
        = "!FORMAT-EXCEPTION! ValueError: single open brace encountered in format string" :=
  ⟨rfl, rfl⟩

/-- C9 (amended): for every WELL-FORMED template — a sequence of
non-brace literal characters and `\x7bidentifier\x7d` fields whose
names are nonempty non-numeric word strings — and every binding map,
rendering succeeds without an error, substitutes each field whose key
is bound and leaves each unbound field verbatim (as the literal
`\x7bname\x7d` token) in the output. -/
theorem C9_safe_rendering (repl : List (String × String)) (ps : List TemplatePart)
    (h : ∀ p ∈ ps, goodPart p = true) :
    format_text_exc (assembleTemplate ps) repl = Except.ok (renderParts repl ps) :=
  format_text_exc_simple repl ps h

/-- Witness for C9 at the template `"\x7bvictim\x7d \x7bunknown\x7d"`
with only `victim` bound. -/
theorem C9_safe_rendering_witness :
    (∀ p ∈ c9Parts, goodPart p = true) ∧
      assembleTemplate c9Parts = "\x7bvictim\x7d \x7bunknown\x7d" ∧
      renderParts [("victim", "Bob")] c9Parts = "Bob \x7bunknown\x7d" ∧
      format_text_exc (assembleTemplate c9Parts) [("victim", "Bob")]
        = Except.ok (renderParts [("victim", "Bob")] c9Parts) :=
  ⟨by decide, by decide, by decide, C9_safe_rendering [("victim", "Bob")] c9Parts (by decide)⟩

/-- C10: the frame property of one `generate_event` slot.  For every
in-range actor there is a set of sampled victims (empty unless the slot
produced a lethal or item-special-lethal event) such that: the victims
are distinct living non-actors (`VictimsOK`); names never change, alive
flags flip exactly on the victims, only the actor's kill counter moves
(by the victim count) and no tribute other than the actor has its
inventory touched (`StateChange`); a lethal-typed event names exactly
the victims in its metadata while every other outcome kills nobody
(`EventLink`); and a skipped slot or a non-lethal/inventory event
leaves the state untouched while a loot event only appends one item to
the actor's inventory (`EventFrame`). -/
theorem C10_frame (a : Nat) (ts : List Tribute) (cfg : SimulationConfig)
    (day : Nat) (map : List (String × SpecialPayload)) (dp : ℚ) (rng : RNG)
    (ha : a < ts.length) :
    ∃ vs, VictimsOK a ts vs ∧
      StateChange a ts (generate_event a ts cfg day map dp rng).2.1 vs ∧
      EventLink ts vs (generate_event a ts cfg day map dp rng).1 ∧
      EventFrame a ts (generate_event a ts cfg day map dp rng).2.1
        (generate_event a ts cfg day map dp rng).1 :=
  generate_event_spec a ts cfg day map dp rng ha

/-- Witness for C10 at a concrete two-tribute slot. -/
theorem C10_frame_witness :
    0 < c10Tributes.length ∧
      ∃ vs, VictimsOK 0 c10Tributes vs ∧
        StateChange 0 c10Tributes
          (generate_event 0 c10Tributes cexConfig 1 [] 1 (RNG.ofSeed (some 0))).2.1 vs ∧
        EventLink c10Tributes vs
          (generate_event 0 c10Tributes cexConfig 1 [] 1 (RNG.ofSeed (some 0))).1 ∧
        EventFrame 0 c10Tributes
          (generate_event 0 c10Tributes cexConfig 1 [] 1 (RNG.ofSeed (some 0))).2.1
          (generate_event 0 c10Tributes cexConfig 1 [] 1 (RNG.ofSeed (some 0))).1 :=
  ⟨by decide, C10_frame 0 c10Tributes cexConfig 1 [] 1 (RNG.ofSeed (some 0)) (by decide)⟩

end Arena
